import Mathlib

/-!
Verification development for the CRISPR AI research suite's pipeline core
(`src/crisprairs/engine/`): the typed session context (`context.py`), the
workflow router (`workflow.py`) and the pipeline runner (`runner.py`).

The Python code is shallowly embedded: dataclasses become structures,
Python dicts become association lists over string keys, Python exceptions
become an explicit error type threaded through `Except`, and the runner's
in-place mutation becomes explicit state passing.  Because `start`,
`_run_current` and `_handle_output` are mutually recursive (a Branch
outcome re-enters `start`) and can genuinely diverge on cyclic branch
graphs, the embedded interpreter takes a fuel parameter; running out of
fuel is reported as a distinguished error and leaves the state at the
recursion point, which only ever cuts a run that Python would continue.

To state observational claims ("this step's execute was invoked exactly
once, with this input"), the interpreter additionally returns a trace of
execute invocations: one event per call to a step's `execute`, recording
the active sequence name, the cursor position, and the `user_input`
argument.  The trace is instrumentation only; it does not influence
control flow.
-/

namespace Crispr

/-- Model of the plain Python values that appear in the JSON-serializable
payload positions of the engine (`dict[str, Any]` fields such as
`GuideRNA.metadata`, `SessionContext.extra`, `StepOutput.data`).
`SessionContext.to_dict`'s own docstring scopes these payloads to "JSON
persistence", so `Any` is modelled as this closed value type (strings,
integers, floats, booleans, None, lists, tuples, string-keyed dicts)
rather than as arbitrary Python objects. -/
inductive PyVal where
  | str : String → PyVal
  | int : Int → PyVal
  | float : Float → PyVal
  | bool : Bool → PyVal
  | pynone : PyVal
  | list : List PyVal → PyVal
  | tuple : List PyVal → PyVal
  | dict : List (String × PyVal) → PyVal
deriving Repr

/-- Python dict lookup on a string-keyed dict modelled as an association
list (first binding wins; dicts built by Python have unique keys). -/
def dictLookup {α : Type} : List (String × α) → String → Option α
  | [], _ => none
  | (k, v) :: rest, key => if k = key then some v else dictLookup rest key

/-- Python `d[key] = value` on an association list: replaces the first
binding of `key` in place, or appends a new binding at the end (matching
dict insertion-order semantics). -/
def dictSet {α : Type} : List (String × α) → String → α → List (String × α)
  | [], k, v => [(k, v)]
  | (k', v') :: rest, k, v =>
      if k' = k then (k, v) :: rest else (k', v') :: dictSet rest k v

/-- `GuideRNA` dataclass from `context.py`.  `score`/`off_target_score`
are carried as `Float` but never computed with. -/
structure GuideRNA where
  sequence : String := ""
  target_site : String := ""
  pam : String := ""
  strand : String := ""
  score : Float := 0.0
  off_target_score : Float := 0.0
  source : String := ""
  metadata : List (String × PyVal) := []

/-- `DeliveryInfo` dataclass from `context.py`. -/
structure DeliveryInfo where
  method : String := ""
  format : String := ""
  product : String := ""
  reasoning : String := ""
  alternatives : String := ""

/-- `PrimerPair` dataclass from `context.py`. -/
structure PrimerPair where
  forward : String := ""
  reverse : String := ""
  product_size : Int := 0
  tm_forward : Float := 0.0
  tm_reverse : Float := 0.0
  blast_status : String := ""

/-- `SessionContext` dataclass from `context.py`, fields in source order.
The `session_id` default is `uuid.uuid4().hex[:12]` in Python; the claims
never exercise that default, and the fresh random value is modelled by a
fixed placeholder string. -/
structure SessionContext where
  session_id : String := ""
  target_gene : String := ""
  species : String := ""
  modality : String := ""
  cas_system : String := ""
  guides : List GuideRNA := []
  selected_guide_index : Int := -1
  base_editor : String := ""
  target_base_change : String := ""
  prime_editor : String := ""
  pegrna_extension : String := ""
  nick_guide : String := ""
  effector_system : String := ""
  target_region : String := ""
  delivery : DeliveryInfo := {}
  primers : List PrimerPair := []
  validation_strategy : String := ""
  off_target_results : List (List (String × PyVal)) := []
  troubleshoot_issue : String := ""
  troubleshoot_recommendations : List String := []
  chat_history : List (String × String) := []
  extra : List (String × PyVal) := []

/-- `dataclasses.asdict` restricted to a `GuideRNA`: every field keyed by
its name; the `metadata` payload is already plain data so the recursive
conversion is the identity on it. -/
def GuideRNA.to_dict (g : GuideRNA) : List (String × PyVal) :=
  [("sequence", .str g.sequence), ("target_site", .str g.target_site),
   ("pam", .str g.pam), ("strand", .str g.strand), ("score", .float g.score),
   ("off_target_score", .float g.off_target_score), ("source", .str g.source),
   ("metadata", .dict g.metadata)]

/-- `dataclasses.asdict` restricted to a `DeliveryInfo`. -/
def DeliveryInfo.to_dict (d : DeliveryInfo) : List (String × PyVal) :=
  [("method", .str d.method), ("format", .str d.format),
   ("product", .str d.product), ("reasoning", .str d.reasoning),
   ("alternatives", .str d.alternatives)]

/-- `dataclasses.asdict` restricted to a `PrimerPair`. -/
def PrimerPair.to_dict (p : PrimerPair) : List (String × PyVal) :=
  [("forward", .str p.forward), ("reverse", .str p.reverse),
   ("product_size", .int p.product_size), ("tm_forward", .float p.tm_forward),
   ("tm_reverse", .float p.tm_reverse), ("blast_status", .str p.blast_status)]

/-- `SessionContext.to_dict` from `context.py`: `dataclasses.asdict`,
which walks the fields in declaration order, recursively converting
nested dataclasses to dicts, lists element-wise, and leaving plain
payloads (and tuples of strings) as they are. -/
def SessionContext.to_dict (c : SessionContext) : List (String × PyVal) :=
  [("session_id", .str c.session_id),
   ("target_gene", .str c.target_gene),
   ("species", .str c.species),
   ("modality", .str c.modality),
   ("cas_system", .str c.cas_system),
   ("guides", .list (c.guides.map fun g => .dict g.to_dict)),
   ("selected_guide_index", .int c.selected_guide_index),
   ("base_editor", .str c.base_editor),
   ("target_base_change", .str c.target_base_change),
   ("prime_editor", .str c.prime_editor),
   ("pegrna_extension", .str c.pegrna_extension),
   ("nick_guide", .str c.nick_guide),
   ("effector_system", .str c.effector_system),
   ("target_region", .str c.target_region),
   ("delivery", .dict c.delivery.to_dict),
   ("primers", .list (c.primers.map fun p => .dict p.to_dict)),
   ("validation_strategy", .str c.validation_strategy),
   ("off_target_results", .list (c.off_target_results.map fun d => .dict d)),
   ("troubleshoot_issue", .str c.troubleshoot_issue),
   ("troubleshoot_recommendations",
     .list (c.troubleshoot_recommendations.map fun s => .str s)),
   ("chat_history", .list (c.chat_history.map fun p => .tuple [.str p.1, .str p.2])),
   ("extra", .dict c.extra)]

/-- The field names of `SessionContext`
(`cls.__dataclass_fields__`), in declaration order. -/
def sessionContextFields : List String :=
  ["session_id", "target_gene", "species", "modality", "cas_system",
   "guides", "selected_guide_index", "base_editor", "target_base_change",
   "prime_editor", "pegrna_extension", "nick_guide", "effector_system",
   "target_region", "delivery", "primers", "validation_strategy",
   "off_target_results", "troubleshoot_issue", "troubleshoot_recommendations",
   "chat_history", "extra"]

/-- The field names of `GuideRNA`. -/
def guideFields : List String :=
  ["sequence", "target_site", "pam", "strand", "score",
   "off_target_score", "source", "metadata"]

/-- The field names of `DeliveryInfo`. -/
def deliveryFields : List String :=
  ["method", "format", "product", "reasoning", "alternatives"]

/-- The field names of `PrimerPair`. -/
def primerFields : List String :=
  ["forward", "reverse", "product_size", "tm_forward", "tm_reverse",
   "blast_status"]

/-- Decode a string-typed dataclass field: absent keys take the default
(dataclass field default), a string value is taken as is.  A present
value of any other shape is a context Python would construct untyped;
such values are outside this typed model and decode to `none`. -/
def decStr (d : List (String × PyVal)) (key dflt : String) : Option String :=
  match dictLookup d key with
  | none => some dflt
  | some (.str s) => some s
  | some _ => none

/-- Decode an int-typed dataclass field (same conventions as `decStr`). -/
def decInt (d : List (String × PyVal)) (key : String) (dflt : Int) : Option Int :=
  match dictLookup d key with
  | none => some dflt
  | some (.int n) => some n
  | some _ => none

/-- Decode a float-typed dataclass field (same conventions as `decStr`). -/
def decFloat (d : List (String × PyVal)) (key : String) (dflt : Float) : Option Float :=
  match dictLookup d key with
  | none => some dflt
  | some (.float x) => some x
  | some _ => none

/-- Decode a `dict[str, Any]` dataclass field (same conventions as `decStr`). -/
def decDict (d : List (String × PyVal)) (key : String) :
    Option (List (String × PyVal)) :=
  match dictLookup d key with
  | none => some []
  | some (.dict m) => some m
  | some _ => none

/-- `GuideRNA(**g)`: rejects unknown keyword keys (Python raises a
TypeError), fills absent fields with their defaults. -/
def decodeGuide (d : List (String × PyVal)) : Option GuideRNA :=
  if d.all (fun kv => guideFields.contains kv.1) then do
    let sequence ← decStr d "sequence" ""
    let target_site ← decStr d "target_site" ""
    let pam ← decStr d "pam" ""
    let strand ← decStr d "strand" ""
    let score ← decFloat d "score" 0.0
    let off_target_score ← decFloat d "off_target_score" 0.0
    let source ← decStr d "source" ""
    let metadata ← decDict d "metadata"
    some ⟨sequence, target_site, pam, strand, score, off_target_score,
          source, metadata⟩
  else none

/-- `DeliveryInfo(**d)` (same conventions as `decodeGuide`). -/
def decodeDelivery (d : List (String × PyVal)) : Option DeliveryInfo :=
  if d.all (fun kv => deliveryFields.contains kv.1) then do
    let method ← decStr d "method" ""
    let format ← decStr d "format" ""
    let product ← decStr d "product" ""
    let reasoning ← decStr d "reasoning" ""
    let alternatives ← decStr d "alternatives" ""
    some ⟨method, format, product, reasoning, alternatives⟩
  else none

/-- `PrimerPair(**p)` (same conventions as `decodeGuide`). -/
def decodePrimer (d : List (String × PyVal)) : Option PrimerPair :=
  if d.all (fun kv => primerFields.contains kv.1) then do
    let forward ← decStr d "forward" ""
    let reverse ← decStr d "reverse" ""
    let product_size ← decInt d "product_size" 0
    let tm_forward ← decFloat d "tm_forward" 0.0
    let tm_reverse ← decFloat d "tm_reverse" 0.0
    let blast_status ← decStr d "blast_status" ""
    some ⟨forward, reverse, product_size, tm_forward, tm_reverse, blast_status⟩
  else none

/-- The `guides` list comprehension of `from_dict`:
`[GuideRNA(**g) if isinstance(g, dict) else g for g in ...]`.  Elements
Python would leave as arbitrary non-dict objects are outside the typed
model and decode to `none`. -/
def decodeGuideList : List PyVal → Option (List GuideRNA)
  | [] => some []
  | .dict g :: rest =>
      match decodeGuide g, decodeGuideList rest with
      | some gr, some grs => some (gr :: grs)
      | _, _ => none
  | _ :: _ => none

/-- The `primers` list comprehension of `from_dict`. -/
def decodePrimerList : List PyVal → Option (List PrimerPair)
  | [] => some []
  | .dict p :: rest =>
      match decodePrimer p, decodePrimerList rest with
      | some pr, some prs => some (pr :: prs)
      | _, _ => none
  | _ :: _ => none

/-- `off_target_results`: the source passes the list through unchanged;
the typed field requires a list of string-keyed dicts. -/
def decodeDictList : List PyVal → Option (List (List (String × PyVal)))
  | [] => some []
  | .dict d :: rest =>
      match decodeDictList rest with
      | some ds => some (d :: ds)
      | none => none
  | _ :: _ => none

/-- `troubleshoot_recommendations`: a list of strings, passed through. -/
def decodeStrList : List PyVal → Option (List String)
  | [] => some []
  | .str s :: rest =>
      match decodeStrList rest with
      | some ss => some (s :: ss)
      | none => none
  | _ :: _ => none

/-- `chat_history`: a list of `(role, text)` string pairs, passed through. -/
def decodeChatList : List PyVal → Option (List (String × String))
  | [] => some []
  | .tuple [.str a, .str b] :: rest =>
      match decodeChatList rest with
      | some ps => some ((a, b) :: ps)
      | none => none
  | _ :: _ => none

/-- The `guides` reconstruction step of `from_dict` (key absent ⇒ dataclass
default `[]`; a non-list value would fail when Python iterates it). -/
def decGuides (d : List (String × PyVal)) : Option (List GuideRNA) :=
  match dictLookup d "guides" with
  | none => some []
  | some (.list l) => decodeGuideList l
  | some _ => none

/-- The `delivery` reconstruction step of `from_dict`. -/
def decDelivery (d : List (String × PyVal)) : Option DeliveryInfo :=
  match dictLookup d "delivery" with
  | none => some {}
  | some (.dict dd) => decodeDelivery dd
  | some _ => none

/-- The `primers` reconstruction step of `from_dict`. -/
def decPrimers (d : List (String × PyVal)) : Option (List PrimerPair) :=
  match dictLookup d "primers" with
  | none => some []
  | some (.list l) => decodePrimerList l
  | some _ => none

/-- The `off_target_results` pass-through of `from_dict`. -/
def decOffTarget (d : List (String × PyVal)) :
    Option (List (List (String × PyVal))) :=
  match dictLookup d "off_target_results" with
  | none => some []
  | some (.list l) => decodeDictList l
  | some _ => none

/-- The `troubleshoot_recommendations` pass-through of `from_dict`. -/
def decRecs (d : List (String × PyVal)) : Option (List String) :=
  match dictLookup d "troubleshoot_recommendations" with
  | none => some []
  | some (.list l) => decodeStrList l
  | some _ => none

/-- The `chat_history` pass-through of `from_dict`. -/
def decChat (d : List (String × PyVal)) : Option (List (String × String)) :=
  match dictLookup d "chat_history" with
  | none => some []
  | some (.list l) => decodeChatList l
  | some _ => none

/-- `SessionContext.from_dict` from `context.py`: reconstructs the nested
`GuideRNA`/`DeliveryInfo`/`PrimerPair` records, filters the input down to
known `SessionContext` field names (unknown keys are dropped silently —
modelled here by simply never consulting them), and builds the context,
using each field's dataclass default when its key is absent. -/
def SessionContext.from_dict (d : List (String × PyVal)) : Option SessionContext :=
  match decStr d "session_id" "", decStr d "target_gene" "",
        decStr d "species" "", decStr d "modality" "",
        decStr d "cas_system" "", decGuides d,
        decInt d "selected_guide_index" (-1), decStr d "base_editor" "",
        decStr d "target_base_change" "", decStr d "prime_editor" "",
        decStr d "pegrna_extension" "", decStr d "nick_guide" "",
        decStr d "effector_system" "", decStr d "target_region" "",
        decDelivery d, decPrimers d, decStr d "validation_strategy" "",
        decOffTarget d, decStr d "troubleshoot_issue" "", decRecs d,
        decChat d, decDict d "extra" with
  | some session_id, some target_gene, some species, some modality,
    some cas_system, some guides, some selected_guide_index,
    some base_editor, some target_base_change, some prime_editor,
    some pegrna_extension, some nick_guide, some effector_system,
    some target_region, some delivery, some primers,
    some validation_strategy, some off_target_results,
    some troubleshoot_issue, some troubleshoot_recommendations,
    some chat_history, some extra =>
      some ⟨session_id, target_gene, species, modality, cas_system, guides,
            selected_guide_index, base_editor, target_base_change,
            prime_editor, pegrna_extension, nick_guide, effector_system,
            target_region, delivery, primers, validation_strategy,
            off_target_results, troubleshoot_issue,
            troubleshoot_recommendations, chat_history, extra⟩
  | _, _, _, _, _, _, _, _, _, _, _, _, _, _, _, _, _, _, _, _, _, _ => none

/-- `StepResult` enum from `workflow.py`. -/
inductive StepResult where
  | CONTINUE
  | WAIT_FOR_INPUT
  | DONE
  | BRANCH
deriving Repr, DecidableEq

/-- `StepOutput` dataclass from `workflow.py`. -/
structure StepOutput where
  result : StepResult
  message : String := ""
  data : List (String × PyVal) := []
  branch_to : Option String := none

/-- The exceptions the embedded engine can raise, parametrized by the
type `ε` of domain errors a concrete step's `execute` may raise
(`StepExecutionFailure` in the spec's taxonomy).  `protocolViolation`
models the `RuntimeError`s of `runner.py`, `unknownWorkflow` the
`KeyError` of `Router.get`, `malformedOutcome` the `ValueError` of
`_handle_output`, and `indexError` a Python `IndexError` from indexing
the step list.  `outOfFuel` is the artifact of the fuelled embedding:
it marks a run the model cut short, never a Python exception. -/
inductive RunError (ε : Type) where
  | protocolViolation : String → RunError ε
  | unknownWorkflow : String → RunError ε
  | malformedOutcome : String → RunError ε
  | stepFailure : ε → RunError ε
  | indexError : RunError ε
  | outOfFuel : RunError ε
deriving Repr, DecidableEq

/-- `WorkflowStep` from `workflow.py`: a step is its capability record.
`execute` receives the session context and the optional user input and
either returns a `StepOutput` together with the mutated context, or
raises a domain error of type `ε`.  `name` is used only for logging. -/
structure WorkflowStep (ε : Type) where
  name : String := ""
  needs_input : Bool := false
  prompt_message : String := ""
  execute : SessionContext → Option String → Except ε (StepOutput × SessionContext)

/-- `Router` from `workflow.py`: a dict from lowercased modality name to
step list, insertion-ordered. -/
structure Router (ε : Type) where
  routes : List (String × List (WorkflowStep ε)) := []

/-- Models Python's `str.lower()`, character by character.  (Python also
lowercases non-ASCII letters; the engine's modality names are ASCII, and
every claim-relevant behavior — case-insensitive resolution — is
preserved.) -/
def pyLower (s : String) : String := ⟨s.data.map Char.toLower⟩

/-- Python's `<=` on strings, on the underlying character lists:
lexicographic by code point. -/
def charListLe : List Char → List Char → Bool
  | [], _ => true
  | _ :: _, [] => false
  | c :: cs, d :: ds =>
      if c.toNat < d.toNat then true
      else if c.toNat = d.toNat then charListLe cs ds
      else false

/-- Python's `<=` on strings. -/
def pyStrLe (a b : String) : Bool := charListLe a.data b.data

/-- Insertion sort on strings: models Python's `sorted` on the dict keys
(lexicographic by code point, ascending, stable). -/
def insortStr (s : String) : List String → List String
  | [] => [s]
  | t :: rest => if pyStrLe s t then s :: t :: rest else t :: insortStr s rest

/-- Models Python `sorted(list_of_strings)`. -/
def sortStrings : List String → List String
  | [] => []
  | s :: rest => insortStr s (sortStrings rest)

/-- `Router.register`: stores the steps under the lowercased name,
overwriting any prior registration. -/
def Router.register (r : Router ε) (modality : String)
    (steps : List (WorkflowStep ε)) : Router ε :=
  ⟨dictSet r.routes (pyLower modality) steps⟩

/-- The `KeyError` message `Router.get` raises for an unknown modality. -/
def Router.unknownMessage (r : Router ε) (modality : String) : String :=
  "Unknown modality '" ++ modality ++ "'. Available: " ++
    String.intercalate ", " (sortStrings (r.routes.map Prod.fst))

/-- `Router.get`: looks up the lowercased name; raises a `KeyError`
enumerating the registered names (sorted) when absent. -/
def Router.get (r : Router ε) (modality : String) :
    Except (RunError ε) (List (WorkflowStep ε)) :=
  match dictLookup r.routes (pyLower modality) with
  | some steps => .ok steps
  | none => .error (.unknownWorkflow (r.unknownMessage modality))

/-- `Router.modalities`: all registered names, sorted. -/
def Router.modalities (r : Router ε) : List String :=
  sortStrings (r.routes.map Prod.fst)

/-- The mutable fields of `PipelineRunner` (its `Router` is immutable
after construction and is passed separately). -/
structure RunnerState (ε : Type) where
  steps : List (WorkflowStep ε)
  cursor : Nat
  done : Bool
  waiting : Bool
  current_modality : String

/-- The state of a freshly constructed `PipelineRunner`. -/
def initialRunnerState (ε : Type) : RunnerState ε :=
  ⟨[], 0, false, false, ""⟩

/-- One recorded invocation of a step's `execute`: the active sequence
name, the cursor position, and the `user_input` argument passed. -/
structure ExecEvent where
  seq : String
  index : Nat
  input : Option String
deriving Repr, DecidableEq

/-- What one engine entry point returns: the Python return value or
exception, the runner state and context after the call (Python mutates
both in place, so they survive an exception), and the instrumentation
trace of `execute` invocations made during the call. -/
structure RunResult (ε : Type) where
  out : Except (RunError ε) StepOutput
  state : RunnerState ε
  ctx : SessionContext
  trace : List ExecEvent

mutual

/-- `PipelineRunner._run_current`: reads the step at the cursor (a
Python `IndexError` if out of range).  If the step needs input, sets
`waiting` and returns a WAIT_FOR_INPUT output carrying the step's
prompt, without executing it.  Otherwise executes the step with
`user_input=None` and hands the output to `_handle_output`. -/
def run_current : Nat → Router ε → RunnerState ε → SessionContext → RunResult ε
  | 0, _, st, ctx => ⟨.error .outOfFuel, st, ctx, []⟩
  | fuel + 1, router, st, ctx =>
    if h : st.cursor < st.steps.length then
      let step := st.steps.get ⟨st.cursor, h⟩
      if step.needs_input then
        ⟨.ok ⟨.WAIT_FOR_INPUT, step.prompt_message, [], none⟩,
         {st with waiting := true}, ctx, []⟩
      else
        match step.execute ctx none with
        | .error e =>
            ⟨.error (.stepFailure e), st, ctx,
             [⟨st.current_modality, st.cursor, none⟩]⟩
        | .ok (output, ctx') =>
            let r := handle_output fuel router st ctx' output
            ⟨r.out, r.state, r.ctx,
             ⟨st.current_modality, st.cursor, none⟩ :: r.trace⟩
    else ⟨.error .indexError, st, ctx, []⟩

/-- `PipelineRunner._handle_output`: DONE at the last index (Python's
`cursor >= len - 1`, compared over ℤ to keep the `len = 0` case exact)
finishes the pipeline and returns the output unchanged; DONE elsewhere
auto-advances; BRANCH without a target raises a `ValueError`, with a
target re-enters `start`; WAIT_FOR_INPUT pauses; CONTINUE advances,
finishing (and retagging the output DONE) when the cursor runs past the
end. -/
def handle_output : Nat → Router ε → RunnerState ε → SessionContext →
    StepOutput → RunResult ε
  | 0, _, st, ctx, _ => ⟨.error .outOfFuel, st, ctx, []⟩
  | fuel + 1, router, st, ctx, output =>
    match output.result with
    | .DONE =>
        if (st.cursor : Int) ≥ (st.steps.length : Int) - 1 then
          ⟨.ok output, {st with done := true}, ctx, []⟩
        else
          run_current fuel router {st with cursor := st.cursor + 1} ctx
    | .BRANCH =>
        match output.branch_to with
        | none =>
            ⟨.error (.malformedOutcome
              "StepOutput with BRANCH result must set branch_to."), st, ctx, []⟩
        | some target =>
            if target = "" then
              ⟨.error (.malformedOutcome
                "StepOutput with BRANCH result must set branch_to."), st, ctx, []⟩
            else start fuel router st ctx target
    | .WAIT_FOR_INPUT => ⟨.ok output, {st with waiting := true}, ctx, []⟩
    | .CONTINUE =>
        let c := st.cursor + 1
        if c ≥ st.steps.length then
          ⟨.ok {output with result := .DONE},
           {st with cursor := c, done := true}, ctx, []⟩
        else run_current fuel router {st with cursor := c} ctx

/-- `PipelineRunner.start`: resolves the modality via the router
(propagating its `KeyError` with the runner state untouched), resets the
cursor and flags, records the sequence name in the runner and the
context, and runs the first step. -/
def start : Nat → Router ε → RunnerState ε → SessionContext → String → RunResult ε
  | 0, _, st, ctx, _ => ⟨.error .outOfFuel, st, ctx, []⟩
  | fuel + 1, router, st, ctx, modality =>
    match router.get modality with
    | .error e => ⟨.error e, st, ctx, []⟩
    | .ok steps =>
        run_current fuel router ⟨steps, 0, false, false, modality⟩
          {ctx with modality := modality}

end

/-- `PipelineRunner.advance`: raises a `RuntimeError` when done or
waiting; otherwise increments the cursor, finishing with a synthetic
"Pipeline complete." DONE output when the cursor runs past the end, and
running the (already incremented) current step otherwise. -/
def advance (fuel : Nat) (router : Router ε) (st : RunnerState ε)
    (ctx : SessionContext) : RunResult ε :=
  if st.done then
    ⟨.error (.protocolViolation "Pipeline is already done."), st, ctx, []⟩
  else if st.waiting then
    ⟨.error (.protocolViolation
      "Pipeline is waiting for user input. Call submit_input()."), st, ctx, []⟩
  else
    let c := st.cursor + 1
    if c ≥ st.steps.length then
      ⟨.ok ⟨.DONE, "Pipeline complete.", [], none⟩,
       {st with cursor := c, done := true}, ctx, []⟩
    else run_current fuel router {st with cursor := c} ctx

/-- `PipelineRunner.submit_input`: raises a `RuntimeError` unless
waiting; otherwise clears `waiting` first, then executes the step at the
cursor with the supplied text as `user_input` and hands the output to
`_handle_output`.  The cleared flag survives a step failure, exactly as
in the Python, where `self._waiting = False` precedes the `execute`
call. -/
def submit_input (fuel : Nat) (router : Router ε) (st : RunnerState ε)
    (ctx : SessionContext) (input : String) : RunResult ε :=
  if st.waiting = false then
    ⟨.error (.protocolViolation "Pipeline is not waiting for input."), st, ctx, []⟩
  else
    let st' := {st with waiting := false}
    if h : st'.cursor < st'.steps.length then
      let step := st'.steps.get ⟨st'.cursor, h⟩
      match step.execute ctx (some input) with
      | .error e =>
          ⟨.error (.stepFailure e), st', ctx,
           [⟨st'.current_modality, st'.cursor, some input⟩]⟩
      | .ok (output, ctx') =>
          let r := handle_output fuel router st' ctx' output
          ⟨r.out, r.state, r.ctx,
           ⟨st'.current_modality, st'.cursor, some input⟩ :: r.trace⟩
    else ⟨.error .indexError, st', ctx, []⟩

/-- `PipelineRunner.is_done`. -/
def RunnerState.is_done (st : RunnerState ε) : Bool := st.done

/-- `PipelineRunner.waiting_for_input`. -/
def RunnerState.waiting_for_input (st : RunnerState ε) : Bool := st.waiting

/-- `PipelineRunner.current_step`. -/
def RunnerState.current_step (st : RunnerState ε) : Option (WorkflowStep ε) :=
  if st.done ∨ st.cursor ≥ st.steps.length then none else st.steps[st.cursor]?

/-- `PipelineRunner.total_steps`. -/
def RunnerState.total_steps (st : RunnerState ε) : Nat := st.steps.length

/-! ### Concrete fixtures used by witnesses and counterexamples -/

/-- A default session context. -/
def ctx0 : SessionContext := {}

/-- An auto step that always returns a CONTINUE output. -/
def stepCont : WorkflowStep String :=
  { execute := fun ctx _ => .ok (⟨.CONTINUE, "ok", [], none⟩, ctx) }

/-- A step whose `execute` always raises the domain error "boom". -/
def stepFail : WorkflowStep String :=
  { execute := fun _ _ => .error "boom" }

/-- An input-collecting step: stores the submitted text in
`ctx.target_gene` and continues. -/
def stepAsk : WorkflowStep String :=
  { needs_input := true, prompt_message := "Enter gene:",
    execute := fun ctx inp =>
      .ok (⟨.CONTINUE, "", [], none⟩, {ctx with target_gene := inp.getD ""}) }

/-- An auto step (no `needs_input`) whose `execute` nevertheless returns
a WAIT_FOR_INPUT output. -/
def stepWFIOut : WorkflowStep String :=
  { execute := fun ctx _ => .ok (⟨.WAIT_FOR_INPUT, "odd", [], none⟩, ctx) }

/-- Step 0 of sequence "a": branches to "b" until `extra["flag"]` is
set, then continues. -/
def aStep0 : WorkflowStep String :=
  { execute := fun ctx _ =>
      match dictLookup ctx.extra "flag" with
      | some (.bool true) => .ok (⟨.CONTINUE, "", [], none⟩, ctx)
      | _ => .ok (⟨.BRANCH, "", [], some "b"⟩, ctx) }

/-- Step 1 of sequence "a": a terminal DONE step. -/
def aStep1 : WorkflowStep String :=
  { execute := fun ctx _ => .ok (⟨.DONE, "terminal", [], none⟩, ctx) }

/-- The sole step of sequence "b": sets `extra["flag"]` and branches
back to "a". -/
def bStep0 : WorkflowStep String :=
  { execute := fun ctx _ =>
      .ok (⟨.BRANCH, "", [], some "a"⟩,
           {ctx with extra := dictSet ctx.extra "flag" (.bool true)}) }

/-- Router with the mutually branching sequences "a" and "b". -/
def rBranchBack : Router String :=
  (Router.register ⟨[]⟩ "a" [aStep0, aStep1]).register "b" [bStep0]

/-- Router with one all-CONTINUE sequence of three steps. -/
def rCont : Router String := Router.register ⟨[]⟩ "m" [stepCont, stepCont, stepCont]

/-- Router registering the empty step list under "e". -/
def rEmpty : Router String := Router.register ⟨[]⟩ "e" []

/-- Router with an input-collecting step between two auto steps. -/
def rAsk : Router String := Router.register ⟨[]⟩ "w" [stepCont, stepAsk, stepCont]

/-- Router whose only step is an auto step returning WAIT_FOR_INPUT. -/
def rWFIOut : Router String := Router.register ⟨[]⟩ "q" [stepWFIOut]

/-! ### Association-list and router lemmas -/

theorem dictLookup_dictSet_self {α : Type} (l : List (String × α)) (k : String)
    (v : α) : dictLookup (dictSet l k v) k = some v := by
  induction l with
  | nil => simp [dictSet, dictLookup]
  | cons p rest ih =>
      by_cases h : p.1 = k
      · simp [dictSet, h, dictLookup]
      · simp [dictSet, h, dictLookup, ih]

/-! ### Serialization round-trip lemmas (C10) -/

theorem dictLookup_cons_ne {α : Type} (d : List (String × α)) (k key : String)
    (v : α) (hne : k ≠ key) : dictLookup ((k, v) :: d) key = dictLookup d key := by
  simp [dictLookup, hne]

theorem decodeGuide_roundtrip (g : GuideRNA) : decodeGuide g.to_dict = some g := rfl

theorem decodeDelivery_roundtrip (d : DeliveryInfo) :
    decodeDelivery d.to_dict = some d := rfl

theorem decodePrimer_roundtrip (p : PrimerPair) : decodePrimer p.to_dict = some p := rfl

theorem decodeGuideList_roundtrip (gs : List GuideRNA) :
    decodeGuideList (gs.map fun g => .dict g.to_dict) = some gs := by
  induction gs with
  | nil => rfl
  | cons g rest ih => simp [decodeGuideList, decodeGuide_roundtrip, ih]

theorem decodePrimerList_roundtrip (ps : List PrimerPair) :
    decodePrimerList (ps.map fun p => .dict p.to_dict) = some ps := by
  induction ps with
  | nil => rfl
  | cons p rest ih => simp [decodePrimerList, decodePrimer_roundtrip, ih]

theorem decodeDictList_roundtrip (ds : List (List (String × PyVal))) :
    decodeDictList (ds.map fun d => .dict d) = some ds := by
  induction ds with
  | nil => rfl
  | cons d rest ih => simp [decodeDictList, ih]

theorem decodeStrList_roundtrip (ss : List String) :
    decodeStrList (ss.map fun s => .str s) = some ss := by
  induction ss with
  | nil => rfl
  | cons s rest ih => simp [decodeStrList, ih]

theorem decodeChatList_roundtrip (ps : List (String × String)) :
    decodeChatList (ps.map fun p => .tuple [.str p.1, .str p.2]) = some ps := by
  induction ps with
  | nil => rfl
  | cons p rest ih => simp [decodeChatList, ih]

theorem decGuides_to_dict (c : SessionContext) : decGuides c.to_dict = some c.guides := by
  show decodeGuideList (c.guides.map fun g => .dict g.to_dict) = some c.guides
  exact decodeGuideList_roundtrip c.guides

theorem decDelivery_to_dict (c : SessionContext) :
    decDelivery c.to_dict = some c.delivery := rfl

theorem decPrimers_to_dict (c : SessionContext) :
    decPrimers c.to_dict = some c.primers := by
  show decodePrimerList (c.primers.map fun p => .dict p.to_dict) = some c.primers
  exact decodePrimerList_roundtrip c.primers

theorem decOffTarget_to_dict (c : SessionContext) :
    decOffTarget c.to_dict = some c.off_target_results := by
  show decodeDictList (c.off_target_results.map fun d => .dict d) =
    some c.off_target_results
  exact decodeDictList_roundtrip c.off_target_results

theorem decRecs_to_dict (c : SessionContext) :
    decRecs c.to_dict = some c.troubleshoot_recommendations := by
  show decodeStrList (c.troubleshoot_recommendations.map fun s => .str s) =
    some c.troubleshoot_recommendations
  exact decodeStrList_roundtrip c.troubleshoot_recommendations

theorem decChat_to_dict (c : SessionContext) :
    decChat c.to_dict = some c.chat_history := by
  show decodeChatList (c.chat_history.map fun p => .tuple [.str p.1, .str p.2]) =
    some c.chat_history
  exact decodeChatList_roundtrip c.chat_history

/-- C10: serializing a `SessionContext` to a plain dict and
reconstructing it (including the nested `GuideRNA`, `DeliveryInfo` and
`PrimerPair` records) is the identity, and `from_dict` silently ignores
a dict key that is not a `SessionContext` field. -/
theorem c10_context_roundtrip :
    (∀ c : SessionContext, SessionContext.from_dict c.to_dict = some c)
    ∧ (∀ (d : List (String × PyVal)) (k : String) (v : PyVal),
        k ∉ sessionContextFields →
        SessionContext.from_dict ((k, v) :: d) = SessionContext.from_dict d) := by
  constructor
  · intro c
    unfold SessionContext.from_dict
    rw [decGuides_to_dict, decDelivery_to_dict, decPrimers_to_dict,
        decOffTarget_to_dict, decRecs_to_dict, decChat_to_dict]
    rfl
  · intro d k v hk
    have hne : ∀ f ∈ sessionContextFields, k ≠ f := fun f hf he => hk (he ▸ hf)
    unfold SessionContext.from_dict
    simp only [decStr, decInt, decDict, decGuides, decDelivery, decPrimers,
      decOffTarget, decRecs, decChat]
    rw [dictLookup_cons_ne d k "session_id" v (hne _ (by decide)),
        dictLookup_cons_ne d k "target_gene" v (hne _ (by decide)),
        dictLookup_cons_ne d k "species" v (hne _ (by decide)),
        dictLookup_cons_ne d k "modality" v (hne _ (by decide)),
        dictLookup_cons_ne d k "cas_system" v (hne _ (by decide)),
        dictLookup_cons_ne d k "guides" v (hne _ (by decide)),
        dictLookup_cons_ne d k "selected_guide_index" v (hne _ (by decide)),
        dictLookup_cons_ne d k "base_editor" v (hne _ (by decide)),
        dictLookup_cons_ne d k "target_base_change" v (hne _ (by decide)),
        dictLookup_cons_ne d k "prime_editor" v (hne _ (by decide)),
        dictLookup_cons_ne d k "pegrna_extension" v (hne _ (by decide)),
        dictLookup_cons_ne d k "nick_guide" v (hne _ (by decide)),
        dictLookup_cons_ne d k "effector_system" v (hne _ (by decide)),
        dictLookup_cons_ne d k "target_region" v (hne _ (by decide)),
        dictLookup_cons_ne d k "delivery" v (hne _ (by decide)),
        dictLookup_cons_ne d k "primers" v (hne _ (by decide)),
        dictLookup_cons_ne d k "validation_strategy" v (hne _ (by decide)),
        dictLookup_cons_ne d k "off_target_results" v (hne _ (by decide)),
        dictLookup_cons_ne d k "troubleshoot_issue" v (hne _ (by decide)),
        dictLookup_cons_ne d k "troubleshoot_recommendations" v (hne _ (by decide)),
        dictLookup_cons_ne d k "chat_history" v (hne _ (by decide)),
        dictLookup_cons_ne d k "extra" v (hne _ (by decide))]

/-- Witness for C10's hypothesis-bearing part: a key "bogus" (not a
`SessionContext` field) is ignored by `from_dict`. -/
theorem c10_context_roundtrip_witness :
    SessionContext.from_dict [("bogus", .int 3)] = SessionContext.from_dict [] :=
  c10_context_roundtrip.2 [] "bogus" (.int 3) (by decide)

/-! ### Claim theorems: router (C8, C9) -/

/-- C8: registration stores under the lowercased name, a second
registration under a name with the same lowercasing replaces the first,
and `get` resolves any name with that lowercasing to the second list. -/
theorem c8_register_overwrites_case_insensitive {ε : Type} (r : Router ε)
    (n m v : String) (s1 s2 : List (WorkflowStep ε))
    (hnm : pyLower n = pyLower m) (hv : pyLower v = pyLower n) :
    ((r.register n s1).register m s2).get v = .ok s2 := by
  simp only [Router.get, Router.register, hv, hnm, dictLookup_dictSet_self]

/-- Witness for C8 at concrete names "KnockOut" / "KNOCKOUT" / "knockOUT". -/
theorem c8_register_overwrites_case_insensitive_witness :
    ((Router.register (⟨[]⟩ : Router String) "KnockOut" []).register
        "KNOCKOUT" [stepCont]).get "knockOUT" = .ok [stepCont] :=
  c8_register_overwrites_case_insensitive ⟨[]⟩ "KnockOut" "KNOCKOUT"
    "knockOUT" [] [stepCont] (by decide) (by decide)

/-- C9: for a name whose lowercasing is not registered, `Router.get`
fails with the `KeyError` whose message lists all registered names in
sorted order, and `start` — which resolves through `get` — propagates
that error with the runner state and context untouched. -/
theorem c9_unknown_workflow_message {ε : Type} (r : Router ε) (name : String)
    (fuel : Nat) (st : RunnerState ε) (ctx : SessionContext)
    (habs : dictLookup r.routes (pyLower name) = none) :
    r.get name = .error (.unknownWorkflow
        ("Unknown modality '" ++ name ++ "'. Available: " ++
          String.intercalate ", " (sortStrings (r.routes.map Prod.fst))))
    ∧ start (fuel + 1) r st ctx name = ⟨.error (.unknownWorkflow
        ("Unknown modality '" ++ name ++ "'. Available: " ++
          String.intercalate ", " (sortStrings (r.routes.map Prod.fst)))),
        st, ctx, []⟩ := by
  have hget : r.get name = .error (.unknownWorkflow
      ("Unknown modality '" ++ name ++ "'. Available: " ++
        String.intercalate ", " (sortStrings (r.routes.map Prod.fst)))) := by
    simp [Router.get, habs, Router.unknownMessage]
  refine ⟨hget, ?_⟩
  simp [start, hget]

/-- Witness for C9: a router with registrations "Zeta" and "alpha" and
the unregistered name "missing"; the message enumerates the stored
(lowercased) names in sorted order. -/
theorem c9_unknown_workflow_message_witness :
    (Router.register (Router.register (⟨[]⟩ : Router String) "Zeta" [])
        "alpha" [stepCont]).get "missing" =
      .error (.unknownWorkflow "Unknown modality 'missing'. Available: alpha, zeta") := by
  have h := c9_unknown_workflow_message
    (Router.register (Router.register (⟨[]⟩ : Router String) "Zeta" [])
      "alpha" [stepCont]) "missing" 5 (initialRunnerState String) ctx0 rfl
  exact h.1.trans (by rfl)

/-! ### Claim theorems: runner protocol errors (C5) -/

/-- C5: `advance` when done, `advance` when waiting, and `submit_input`
when not waiting each raise a ProtocolViolation (`RuntimeError` in the
source), and in each case the runner state (step list, cursor, done,
waiting, active sequence name) and the context are left unchanged. -/
theorem c5_protocol_violations {ε : Type} (fuel : Nat) (router : Router ε)
    (st : RunnerState ε) (ctx : SessionContext) (input : String) :
    (st.done = true →
      advance fuel router st ctx =
        ⟨.error (.protocolViolation "Pipeline is already done."), st, ctx, []⟩)
    ∧ (st.done = false → st.waiting = true →
      advance fuel router st ctx =
        ⟨.error (.protocolViolation
          "Pipeline is waiting for user input. Call submit_input()."), st, ctx, []⟩)
    ∧ (st.waiting = true →
      ∃ msg, advance fuel router st ctx =
        ⟨.error (.protocolViolation msg), st, ctx, []⟩)
    ∧ (st.waiting = false →
      submit_input fuel router st ctx input =
        ⟨.error (.protocolViolation "Pipeline is not waiting for input."), st, ctx, []⟩) := by
  refine ⟨fun hd => by simp [advance, hd],
          fun hd hw => by simp [advance, hd, hw],
          fun hw => ?_,
          fun hw => by simp [submit_input, hw]⟩
  by_cases hd : st.done
  · exact ⟨"Pipeline is already done.", by simp [advance, hd]⟩
  · exact ⟨"Pipeline is waiting for user input. Call submit_input().",
      by simp [advance, hd, hw]⟩

/-- Witness for C5 at concrete done / waiting / idle states. -/
theorem c5_protocol_violations_witness :
    advance 5 rCont ⟨[], 0, true, false, "m"⟩ ctx0 =
      ⟨.error (.protocolViolation "Pipeline is already done."),
       ⟨[], 0, true, false, "m"⟩, ctx0, []⟩
    ∧ advance 5 rAsk ⟨[stepAsk], 0, false, true, "w"⟩ ctx0 =
      ⟨.error (.protocolViolation
        "Pipeline is waiting for user input. Call submit_input()."),
       ⟨[stepAsk], 0, false, true, "w"⟩, ctx0, []⟩
    ∧ submit_input 5 rCont ⟨[stepCont], 0, false, false, "m"⟩ ctx0 "hi" =
      ⟨.error (.protocolViolation "Pipeline is not waiting for input."),
       ⟨[stepCont], 0, false, false, "m"⟩, ctx0, []⟩ :=
  ⟨(c5_protocol_violations 5 rCont ⟨[], 0, true, false, "m"⟩ ctx0 "hi").1 rfl,
   (c5_protocol_violations 5 rAsk ⟨[stepAsk], 0, false, true, "w"⟩ ctx0 "hi").2.1 rfl rfl,
   (c5_protocol_violations 5 rCont ⟨[stepCont], 0, false, false, "m"⟩ ctx0 "hi").2.2.2 rfl⟩

/-! ### Trace facts -/

/-- Every `execute` invocation made by the auto-advancing machinery
(`_run_current`, `_handle_output`, `start`) passes `user_input=None`:
only `submit_input` ever passes text.  Proved for the three mutually
recursive functions simultaneously, by induction on fuel. -/
theorem auto_trace_inputs_none {ε : Type} :
    ∀ (fuel : Nat) (router : Router ε) (st : RunnerState ε) (ctx : SessionContext),
    (∀ ev ∈ (run_current fuel router st ctx).trace, ev.input = none)
    ∧ (∀ out, ∀ ev ∈ (handle_output fuel router st ctx out).trace, ev.input = none)
    ∧ (∀ m, ∀ ev ∈ (start fuel router st ctx m).trace, ev.input = none) := by
  intro fuel
  induction fuel with
  | zero =>
      intro router st ctx
      exact ⟨by simp [run_current], fun out => by simp [handle_output],
             fun m => by simp [start]⟩
  | succ f ih =>
      intro router st ctx
      refine ⟨?_, ?_, ?_⟩
      · by_cases h : st.cursor < st.steps.length
        · by_cases hni : st.steps[st.cursor].needs_input = true
          · simp [run_current, h, hni]
          · cases hex : st.steps[st.cursor].execute ctx none with
            | error e => simp [run_current, h, hni, hex]
            | ok pr =>
                obtain ⟨out, ctx'⟩ := pr
                intro ev hev
                simp only [run_current, dif_pos h, List.get_eq_getElem,
                  if_neg hni, hex, List.mem_cons] at hev
                rcases hev with rfl | hev
                · rfl
                · exact (ih router st ctx').2.1 out ev hev
        · simp [run_current, h]
      · intro out
        cases hres : out.result with
        | DONE =>
            by_cases hlast : (st.cursor : Int) ≥ (st.steps.length : Int) - 1
            · simp [handle_output, hres, hlast]
            · simp only [handle_output, hres, if_neg hlast]
              exact (ih router {st with cursor := st.cursor + 1} ctx).1
        | BRANCH =>
            cases hbt : out.branch_to with
            | none => simp [handle_output, hres, hbt]
            | some target =>
                by_cases ht : target = ""
                · simp [handle_output, hres, hbt, ht]
                · simp only [handle_output, hres, hbt, if_neg ht]
                  exact (ih router st ctx).2.2 target
        | WAIT_FOR_INPUT => simp [handle_output, hres]
        | CONTINUE =>
            by_cases hend : st.cursor + 1 ≥ st.steps.length
            · simp [handle_output, hres, hend]
            · simp only [handle_output, hres, if_neg hend]
              exact (ih router {st with cursor := st.cursor + 1} ctx).1
      · intro m
        cases hget : router.get m with
        | error e => simp [start, hget]
        | ok steps =>
            simp only [start, hget]
            exact (ih router ⟨steps, 0, false, false, m⟩
              {ctx with modality := m}).1

/-! ### Claim theorems: input-collecting steps (C2) -/

/-- C2: when the cursor stands on a step that declares `needs_input`
(every path — `start`, `advance`, auto-continuation — reaches a position
through `_run_current`), the core returns a WAIT_FOR_INPUT output
carrying that step's prompt without invoking its `execute` (the trace of
the call is empty); and `submit_input` on the resulting waiting state
invokes that step's `execute` exactly once — the head of its trace is
the one invocation at this position carrying the submitted text, every
later invocation passes no user input, and the count of input-carrying
invocations is exactly one. -/
theorem c2_needs_input_pauses_then_executes_once {ε : Type} (fuel : Nat)
    (router : Router ε) (st : RunnerState ε) (ctx : SessionContext)
    (input : String) (h : st.cursor < st.steps.length)
    (hni : (st.steps.get ⟨st.cursor, h⟩).needs_input = true) :
    run_current (fuel + 1) router st ctx =
      ⟨.ok ⟨.WAIT_FOR_INPUT, (st.steps.get ⟨st.cursor, h⟩).prompt_message, [], none⟩,
       {st with waiting := true}, ctx, []⟩
    ∧ (∃ rest,
        (submit_input fuel router {st with waiting := true} ctx input).trace =
          ⟨st.current_modality, st.cursor, some input⟩ :: rest
        ∧ (∀ ev ∈ rest, ev.input = none)
        ∧ (submit_input fuel router {st with waiting := true} ctx
            input).trace.countP (fun ev => ev.input.isSome) = 1) := by
  rw [List.get_eq_getElem] at hni
  constructor
  · simp [run_current, h, hni]
  · have hc : st.cursor < st.steps.length := h
    cases hex : st.steps[st.cursor].execute ctx (some input) with
    | error e =>
        refine ⟨[], ?_, by simp, ?_⟩
        · simp [submit_input, hc, hex]
        · simp [submit_input, hc, hex, List.countP, List.countP.go]
    | ok pr =>
        obtain ⟨out, ctx'⟩ := pr
        have htr : (submit_input fuel router {st with waiting := true} ctx
            input).trace =
            ⟨st.current_modality, st.cursor, some input⟩ ::
              (handle_output fuel router {st with waiting := false} ctx'
                out).trace := by
          simp [submit_input, hc, hex]
        have hnone : ∀ ev ∈ (handle_output fuel router
            {st with waiting := false} ctx' out).trace, ev.input = none :=
          (auto_trace_inputs_none fuel router
            {st with waiting := false} ctx').2.1 out
        have hz : (handle_output fuel router {st with waiting := false} ctx'
            out).trace.countP (fun ev => ev.input.isSome) = 0 := by
          rw [List.countP_eq_zero]
          intro ev hev
          simp [hnone ev hev]
        refine ⟨_, htr, hnone, ?_⟩
        rw [htr, List.countP_cons, hz]
        simp

/-- Witness for C2 at the concrete sequence `[stepCont, stepAsk,
stepCont]` paused at position 1. -/
theorem c2_needs_input_pauses_then_executes_once_witness :
    run_current 9 rAsk ⟨[stepCont, stepAsk, stepCont], 1, false, false, "w"⟩ ctx0 =
      ⟨.ok ⟨.WAIT_FOR_INPUT, "Enter gene:", [], none⟩,
       ⟨[stepCont, stepAsk, stepCont], 1, false, true, "w"⟩, ctx0, []⟩
    ∧ (∃ rest,
        (submit_input 8 rAsk ⟨[stepCont, stepAsk, stepCont], 1, false, true, "w"⟩
          ctx0 "BRCA1").trace = ⟨"w", 1, some "BRCA1"⟩ :: rest
        ∧ (∀ ev ∈ rest, ev.input = none)
        ∧ (submit_input 8 rAsk ⟨[stepCont, stepAsk, stepCont], 1, false, true, "w"⟩
            ctx0 "BRCA1").trace.countP (fun ev => ev.input.isSome) = 1) :=
  c2_needs_input_pauses_then_executes_once 8 rAsk
    ⟨[stepCont, stepAsk, stepCont], 1, false, false, "w"⟩ ctx0 "BRCA1"
    (by decide) rfl

/-! ### Claim theorems: all-CONTINUE sequences (C1) -/

/-- A Continue-kind step: an auto step (no input needed) whose `execute`
always succeeds with a CONTINUE-kind output. -/
def ContStep (s : WorkflowStep ε) : Prop :=
  s.needs_input = false ∧
  ∀ ctx inp, ∃ out ctx2, s.execute ctx inp = .ok (out, ctx2)
    ∧ out.result = .CONTINUE

theorem range_shift_map (m : String) (c k : Nat) :
    (List.range (k + 1)).map (fun i => (⟨m, c + i, none⟩ : ExecEvent)) =
      ⟨m, c, none⟩ :: (List.range k).map (fun i => ⟨m, c + 1 + i, none⟩) := by
  rw [List.range_succ_eq_map, List.map_cons, List.map_map]
  have hf : ((fun i => (⟨m, c + i, none⟩ : ExecEvent)) ∘ Nat.succ) =
      fun i => (⟨m, c + 1 + i, none⟩ : ExecEvent) := by
    funext i
    simp only [Function.comp]
    congr 1
    omega
  rw [hf]
  simp

/-- Auto-advance through the trailing `k + 1` Continue-kind steps of the
active list: every one of them executes once, in order, and the run ends
done with a DONE-kind output. -/
theorem cont_chain {ε : Type} :
    ∀ (k fuel : Nat) (router : Router ε) (st : RunnerState ε)
      (ctx : SessionContext),
    (∀ s ∈ st.steps, ContStep s) →
    st.cursor + (k + 1) = st.steps.length → 2 * (k + 1) ≤ fuel →
    ∃ out ctxf, run_current fuel router st ctx =
      ⟨.ok out, {st with cursor := st.steps.length, done := true}, ctxf,
       (List.range (k + 1)).map fun i => ⟨st.current_modality, st.cursor + i, none⟩⟩
      ∧ out.result = .DONE := by
  intro k
  induction k with
  | zero =>
      intro fuel router st ctx hall hk hfuel
      obtain ⟨f, rfl⟩ : ∃ f, fuel = f + 2 := ⟨fuel - 2, by omega⟩
      have h : st.cursor < st.steps.length := by omega
      obtain ⟨hni, hexe⟩ := hall st.steps[st.cursor] (List.getElem_mem h)
      obtain ⟨out0, ctx1, hex, hres⟩ := hexe ctx none
      refine ⟨{out0 with result := .DONE}, ctx1, ?_, rfl⟩
      have hend : st.cursor + 1 ≥ st.steps.length := by omega
      simp only [run_current, dif_pos h, List.get_eq_getElem, hni,
        Bool.false_eq_true, if_false, hex, handle_output, hres, hend,
        if_true, ge_iff_le, if_pos hend]
      have hcur : st.cursor + 1 = st.steps.length := by omega
      simp [hcur, List.range_succ]
  | succ k ih =>
      intro fuel router st ctx hall hk hfuel
      obtain ⟨f, rfl⟩ : ∃ f, fuel = f + 2 := ⟨fuel - 2, by omega⟩
      have h : st.cursor < st.steps.length := by omega
      obtain ⟨hni, hexe⟩ := hall st.steps[st.cursor] (List.getElem_mem h)
      obtain ⟨out0, ctx1, hex, hres⟩ := hexe ctx none
      have hlt : ¬ (st.cursor + 1 ≥ st.steps.length) := by omega
      obtain ⟨out, ctxf, heq, hdone⟩ := ih f router
        {st with cursor := st.cursor + 1} ctx1 hall (by simpa using by omega)
        (by omega)
      refine ⟨out, ctxf, ?_, hdone⟩
      simp only [run_current, dif_pos h, List.get_eq_getElem, hni,
        Bool.false_eq_true, if_false, hex, handle_output, hres,
        if_neg hlt]
      rw [heq]
      rw [range_shift_map st.current_modality st.cursor (k + 1)]

/-- C1 (amended to sequences with at least one step): starting a
registered sequence of `N ≥ 1` Continue-kind steps drives the runner to
done, executing each of the `N` steps exactly once in list order
(the trace is exactly positions `0, …, N-1` of that sequence), with the
returned output DONE-kind — in particular never a WAIT_FOR_INPUT — and
no pause (`waiting` ends false). -/
theorem c1_continue_chain_completes {ε : Type} (fuel : Nat) (router : Router ε)
    (st : RunnerState ε) (ctx : SessionContext) (m : String)
    (steps : List (WorkflowStep ε)) (N : Nat)
    (hreg : router.get m = .ok steps) (hlen : steps.length = N) (hpos : 0 < N)
    (hall : ∀ s ∈ steps, ContStep s) (hfuel : 2 * N + 1 ≤ fuel) :
    ∃ out ctxf, start fuel router st ctx m =
      ⟨.ok out, ⟨steps, N, true, false, m⟩, ctxf,
       (List.range N).map fun i => ⟨m, i, none⟩⟩
      ∧ out.result = .DONE ∧ out.result ≠ .WAIT_FOR_INPUT := by
  obtain ⟨f, rfl⟩ : ∃ f, fuel = f + 1 := ⟨fuel - 1, by omega⟩
  obtain ⟨k, rfl⟩ : ∃ k, N = k + 1 := ⟨N - 1, by omega⟩
  obtain ⟨out, ctxf, heq, hdone⟩ := cont_chain k f router
    ⟨steps, 0, false, false, m⟩ {ctx with modality := m} hall
    (by simp [hlen]) (by omega)
  refine ⟨out, ctxf, ?_, hdone, by simp [hdone]⟩
  simp only [start, hreg]
  rw [heq]
  have hz : (fun i => (⟨m, 0 + i, none⟩ : ExecEvent)) =
      fun i => (⟨m, i, none⟩ : ExecEvent) := by
    funext i
    simp
  simp [hlen, hz]

/-- Witness for C1: the registered three-step all-CONTINUE sequence "m"
runs to completion from `start`, executing positions 0, 1, 2 once each. -/
theorem c1_continue_chain_completes_witness :
    ∃ out ctxf, start 10 rCont (initialRunnerState String) ctx0 "m" =
      ⟨.ok out, ⟨[stepCont, stepCont, stepCont], 3, true, false, "m"⟩, ctxf,
       (List.range 3).map fun i => ⟨"m", i, none⟩⟩
      ∧ out.result = .DONE ∧ out.result ≠ .WAIT_FOR_INPUT :=
  c1_continue_chain_completes 10 rCont (initialRunnerState String) ctx0 "m"
    [stepCont, stepCont, stepCont] 3 rfl rfl (by decide)
    (by
      intro s hs
      have hc : ContStep stepCont :=
        ⟨rfl, fun ctx inp => ⟨⟨.CONTINUE, "ok", [], none⟩, ctx, rfl, rfl⟩⟩
      simp only [List.mem_cons, List.not_mem_nil, or_false] at hs
      rcases hs with rfl | rfl | rfl <;> exact hc)
    (by omega)

/-- Counterexample to C1 as stated: the empty step list is a registered
sequence all of whose steps (vacuously) always return CONTINUE, yet
`start` raises an IndexError (`self._steps[self._cursor]` on an empty
list) and the runner never reaches `is_done`. -/
theorem c1_empty_sequence_counterexample :
    (start 10 rEmpty (initialRunnerState String) ctx0 "e").out =
      .error .indexError
    ∧ (start 10 rEmpty (initialRunnerState String) ctx0 "e").state.is_done
        = false
    ∧ (start 10 rEmpty (initialRunnerState String) ctx0 "e").trace = [] :=
  ⟨rfl, rfl, rfl⟩

/-! ### Claim theorems: branching (C3) -/

/-- A step whose `execute` never returns a BRANCH-kind output. -/
def NoBranch (s : WorkflowStep ε) : Prop :=
  ∀ ctx inp out ctx2, s.execute ctx inp = .ok (out, ctx2) →
    out.result ≠ .BRANCH

/-- While no executed step branches, the active step list and sequence
name never change, and every recorded execution belongs to the active
sequence.  Proved for `_run_current` and `_handle_output` simultaneously
by induction on fuel (`start` is unreachable without a BRANCH). -/
theorem no_branch_facts {ε : Type} :
    ∀ (fuel : Nat) (router : Router ε) (st : RunnerState ε) (ctx : SessionContext),
    ((∀ s ∈ st.steps, NoBranch s) →
      (run_current fuel router st ctx).state.steps = st.steps
      ∧ (run_current fuel router st ctx).state.current_modality =
          st.current_modality
      ∧ ∀ ev ∈ (run_current fuel router st ctx).trace,
          ev.seq = st.current_modality)
    ∧ (∀ out, (∀ s ∈ st.steps, NoBranch s) → out.result ≠ .BRANCH →
      (handle_output fuel router st ctx out).state.steps = st.steps
      ∧ (handle_output fuel router st ctx out).state.current_modality =
          st.current_modality
      ∧ ∀ ev ∈ (handle_output fuel router st ctx out).trace,
          ev.seq = st.current_modality) := by
  intro fuel
  induction fuel with
  | zero =>
      intro router st ctx
      exact ⟨fun _ => by simp [run_current],
             fun out _ _ => by simp [handle_output]⟩
  | succ f ih =>
      intro router st ctx
      constructor
      · intro hnb
        by_cases h : st.cursor < st.steps.length
        · by_cases hni : st.steps[st.cursor].needs_input = true
          · simp [run_current, h, hni]
          · cases hex : st.steps[st.cursor].execute ctx none with
            | error e => simp [run_current, h, hni, hex]
            | ok pr =>
                obtain ⟨out, ctx'⟩ := pr
                have hbr : out.result ≠ .BRANCH :=
                  hnb st.steps[st.cursor] (List.getElem_mem h) ctx none out
                    ctx' hex
                obtain ⟨h1, h2, h3⟩ := (ih router st ctx').2 out hnb hbr
                refine ⟨?_, ?_, ?_⟩
                · simp only [run_current, dif_pos h, List.get_eq_getElem,
                    if_neg hni, hex]
                  exact h1
                · simp only [run_current, dif_pos h, List.get_eq_getElem,
                    if_neg hni, hex]
                  exact h2
                · intro ev hev
                  simp only [run_current, dif_pos h, List.get_eq_getElem,
                    if_neg hni, hex, List.mem_cons] at hev
                  rcases hev with rfl | hev
                  · rfl
                  · exact h3 ev hev
        · simp [run_current, h]
      · intro out hnb hbr
        cases hres : out.result with
        | DONE =>
            by_cases hlast : (st.cursor : Int) ≥ (st.steps.length : Int) - 1
            · simp [handle_output, hres, hlast]
            · simp only [handle_output, hres, if_neg hlast]
              exact (ih router {st with cursor := st.cursor + 1} ctx).1 hnb
        | BRANCH => exact absurd hres hbr
        | WAIT_FOR_INPUT => simp [handle_output, hres]
        | CONTINUE =>
            by_cases hend : st.cursor + 1 ≥ st.steps.length
            · simp [handle_output, hres, hend]
            · simp only [handle_output, hres, if_neg hend]
              exact (ih router {st with cursor := st.cursor + 1} ctx).1 hnb

/-- C3 (amended to targets whose steps do not themselves branch): a
BRANCH output with non-empty target `b` makes `_handle_output` re-enter
`start` on `b`; `start` resets the runner to `b`'s registered list with
cursor 0 and runs it, and — provided `b`'s steps never return BRANCH —
afterwards the active sequence name is `b`, the active list is `b`'s,
and every step execution from the re-entry onwards belongs to sequence
`b`: in particular, when `b` is a different sequence than the branching
one, no step of the old sequence positioned after the branching step is
ever executed. -/
theorem c3_branch_reenters_start {ε : Type} (fuel g : Nat) (router : Router ε)
    (st : RunnerState ε) (ctx : SessionContext) (out : StepOutput)
    (b : String) (bs : List (WorkflowStep ε))
    (hres : out.result = .BRANCH) (hbt : out.branch_to = some b) (hb : b ≠ "")
    (hreg : router.get b = .ok bs) (hnb : ∀ s ∈ bs, NoBranch s) :
    handle_output (fuel + 1) router st ctx out = start fuel router st ctx b
    ∧ start (g + 1) router st ctx b =
        run_current g router ⟨bs, 0, false, false, b⟩ {ctx with modality := b}
    ∧ (start (g + 1) router st ctx b).state.current_modality = b
    ∧ (start (g + 1) router st ctx b).state.steps = bs
    ∧ (∀ ev ∈ (start (g + 1) router st ctx b).trace, ev.seq = b) := by
  have hstart : start (g + 1) router st ctx b =
      run_current g router ⟨bs, 0, false, false, b⟩ {ctx with modality := b} := by
    simp [start, hreg]
  obtain ⟨h1, h2, h3⟩ :=
    (no_branch_facts g router ⟨bs, 0, false, false, b⟩
      {ctx with modality := b}).1 hnb
  refine ⟨by simp [handle_output, hres, hbt, hb], hstart, ?_, ?_, ?_⟩
  · rw [hstart]
    exact h2
  · rw [hstart]
    exact h1
  · rw [hstart]
    exact h3

/-- An auto step that unconditionally branches to sequence "b". -/
def stepBranchB : WorkflowStep String :=
  { execute := fun ctx _ => .ok (⟨.BRANCH, "", [], some "b"⟩, ctx) }

/-- Router where "a" branches (at position 0) to "b", whose single step
is a plain CONTINUE step. -/
def rSimpleBranch : Router String :=
  (Router.register ⟨[]⟩ "a" [stepBranchB, aStep1]).register "b" [stepCont]

/-- Witness for C3 with the concrete branch `"a" → "b"`. -/
theorem c3_branch_reenters_start_witness :
    handle_output 7 rSimpleBranch ⟨[stepBranchB, aStep1], 0, false, false, "a"⟩
        ctx0 ⟨.BRANCH, "", [], some "b"⟩ =
      start 6 rSimpleBranch ⟨[stepBranchB, aStep1], 0, false, false, "a"⟩
        ctx0 "b"
    ∧ start 7 rSimpleBranch ⟨[stepBranchB, aStep1], 0, false, false, "a"⟩
        ctx0 "b" =
      run_current 6 rSimpleBranch ⟨[stepCont], 0, false, false, "b"⟩
        {ctx0 with modality := "b"}
    ∧ (start 7 rSimpleBranch ⟨[stepBranchB, aStep1], 0, false, false, "a"⟩
        ctx0 "b").state.current_modality = "b"
    ∧ (start 7 rSimpleBranch ⟨[stepBranchB, aStep1], 0, false, false, "a"⟩
        ctx0 "b").state.steps = [stepCont]
    ∧ (∀ ev ∈ (start 7 rSimpleBranch
        ⟨[stepBranchB, aStep1], 0, false, false, "a"⟩ ctx0 "b").trace,
        ev.seq = "b") :=
  c3_branch_reenters_start 6 6 rSimpleBranch
    ⟨[stepBranchB, aStep1], 0, false, false, "a"⟩ ctx0
    ⟨.BRANCH, "", [], some "b"⟩ "b" [stepCont] rfl rfl (by decide) rfl
    (by
      intro s hs
      simp only [List.mem_cons, List.not_mem_nil, or_false] at hs
      subst hs
      intro c i o c2 hok
      simp only [stepCont, Except.ok.injEq, Prod.mk.injEq] at hok
      obtain ⟨h1, h2⟩ := hok
      subst h1
      decide)

/-- Counterexample to C3 as stated: with `"a" = [aStep0, aStep1]` and
`"b" = [bStep0]`, where `aStep0` branches to "b" and `bStep0` branches
back to "a" (after setting a context flag that makes `aStep0` continue
on its second run), the step of "a" at position 1 — after the branching
position 0 — is executed (final trace event), and the final active
sequence name is "a", not the branch target "b". -/
theorem c3_branch_back_counterexample :
    (start 30 rBranchBack (initialRunnerState String) ctx0 "a").trace =
      [⟨"a", 0, none⟩, ⟨"b", 0, none⟩, ⟨"a", 0, none⟩, ⟨"a", 1, none⟩]
    ∧ (start 30 rBranchBack (initialRunnerState String) ctx0
        "a").state.current_modality = "a" :=
  ⟨rfl, rfl⟩

/-! ### Claim theorems: step failures (C4) -/

/-- C4 (amended: the error does propagate verbatim, but the runner state
is not rolled back).  A domain error raised by a step's `execute`
propagates unchanged — tagged as a step failure, never caught, wrapped
or retried — out of `advance`, `submit_input` or `start`; but the state
mutations made before the `execute` call survive: `advance` leaves the
cursor incremented, `submit_input` leaves the waiting flag cleared, and
`start` leaves the freshly loaded sequence state, so retrying the same
call is not in general safe (a retried `advance` would skip a step; a
retried `submit_input` raises a ProtocolViolation). -/
theorem c4_step_failure_propagates {ε : Type} (fuel : Nat) (router : Router ε)
    (st : RunnerState ε) (ctx : SessionContext) (e : ε) (input : String)
    (m : String) (steps : List (WorkflowStep ε)) :
    (st.done = false → st.waiting = false →
      ∀ (hc : st.cursor + 1 < st.steps.length),
      (st.steps.get ⟨st.cursor + 1, hc⟩).needs_input = false →
      (st.steps.get ⟨st.cursor + 1, hc⟩).execute ctx none = .error e →
      advance (fuel + 1) router st ctx =
        ⟨.error (.stepFailure e), {st with cursor := st.cursor + 1}, ctx,
         [⟨st.current_modality, st.cursor + 1, none⟩]⟩)
    ∧ (st.waiting = true →
      ∀ (hc : st.cursor < st.steps.length),
      (st.steps.get ⟨st.cursor, hc⟩).execute ctx (some input) = .error e →
      submit_input fuel router st ctx input =
        ⟨.error (.stepFailure e), {st with waiting := false}, ctx,
         [⟨st.current_modality, st.cursor, some input⟩]⟩)
    ∧ (router.get m = .ok steps →
      ∀ (hc : 0 < steps.length),
      (steps.get ⟨0, hc⟩).needs_input = false →
      (steps.get ⟨0, hc⟩).execute {ctx with modality := m} none = .error e →
      start (fuel + 2) router st ctx m =
        ⟨.error (.stepFailure e), ⟨steps, 0, false, false, m⟩,
         {ctx with modality := m}, [⟨m, 0, none⟩]⟩) := by
  refine ⟨?_, ?_, ?_⟩
  · intro hd hw hc hni hex
    rw [List.get_eq_getElem] at hni hex
    have hlt : ¬ (st.cursor + 1 ≥ st.steps.length) := by omega
    simp [advance, hd, hw, hlt, run_current, hc, hni, hex]
  · intro hw hc hex
    rw [List.get_eq_getElem] at hex
    simp [submit_input, hw, hc, hex]
  · intro hreg hc hni hex
    rw [List.get_eq_getElem] at hni hex
    simp [start, hreg, run_current, hc, hni, hex]

/-- Witness for C4: a failing step at position 1 reached by `advance`,
the same failure through `submit_input` at a waiting step, and a
sequence whose first step fails under `start`. -/
theorem c4_step_failure_propagates_witness :
    advance 6 (Router.register ⟨[]⟩ "f" [stepCont, stepFail])
        ⟨[stepCont, stepFail], 0, false, false, "f"⟩ ctx0 =
      ⟨.error (.stepFailure "boom"), ⟨[stepCont, stepFail], 1, false, false, "f"⟩,
       ctx0, [⟨"f", 1, none⟩]⟩
    ∧ submit_input 5 (Router.register ⟨[]⟩ "f" [stepFail])
        ⟨[stepFail], 0, false, true, "f"⟩ ctx0 "x" =
      ⟨.error (.stepFailure "boom"), ⟨[stepFail], 0, false, false, "f"⟩,
       ctx0, [⟨"f", 0, some "x"⟩]⟩
    ∧ start 7 (Router.register ⟨[]⟩ "f" [stepFail])
        (initialRunnerState String) ctx0 "f" =
      ⟨.error (.stepFailure "boom"), ⟨[stepFail], 0, false, false, "f"⟩,
       {ctx0 with modality := "f"}, [⟨"f", 0, none⟩]⟩ :=
  ⟨(c4_step_failure_propagates 5 (Router.register ⟨[]⟩ "f" [stepCont, stepFail])
      ⟨[stepCont, stepFail], 0, false, false, "f"⟩ ctx0 "boom" "x" "f"
      [stepFail]).1 rfl rfl (by decide) rfl rfl,
   (c4_step_failure_propagates 5 (Router.register ⟨[]⟩ "f" [stepFail])
      ⟨[stepFail], 0, false, true, "f"⟩ ctx0 "boom" "x" "f" [stepFail]).2.1
      rfl (by decide) rfl,
   (c4_step_failure_propagates 5 (Router.register ⟨[]⟩ "f" [stepFail])
      (initialRunnerState String) ctx0 "boom" "x" "f" [stepFail]).2.2
      rfl (by decide) rfl rfl⟩

/-- Counterexample to C4 as stated: at state cursor 0 over
`[stepCont, stepFail]`, `advance` lets the error propagate but leaves
the cursor at 1, not at its pre-call value 0 — the runner state is not
"exactly as it was before that failing call". -/
theorem c4_state_not_restored_counterexample :
    (advance 6 (Router.register ⟨[]⟩ "f" [stepCont, stepFail])
        ⟨[stepCont, stepFail], 0, false, false, "f"⟩ ctx0).out =
      .error (.stepFailure "boom")
    ∧ (advance 6 (Router.register ⟨[]⟩ "f" [stepCont, stepFail])
        ⟨[stepCont, stepFail], 0, false, false, "f"⟩ ctx0).state.cursor = 1
    ∧ (⟨[stepCont, stepFail], 0, false, false, "f"⟩ :
        RunnerState String).cursor = 0 :=
  ⟨rfl, rfl, rfl⟩

/-! ### Claim theorems: runner state invariant (C6) -/

/-- A step whose `execute` never returns a WAIT_FOR_INPUT-kind output
(pauses are requested via `needs_input`, not via outputs). -/
def NoWFI (s : WorkflowStep ε) : Prop :=
  ∀ ctx inp out ctx2, s.execute ctx inp = .ok (out, ctx2) →
    out.result ≠ .WAIT_FOR_INPUT

/-- Every step registered anywhere in the router satisfies `NoWFI`. -/
def RouterNoWFI (router : Router ε) : Prop :=
  ∀ p ∈ router.routes, ∀ s ∈ p.2, NoWFI s

/-- The runner-state invariant of C6 (with the auxiliary fact, needed
for the induction, that the loaded steps satisfy `NoWFI`):
waiting and done never hold together (so exactly one of waiting, done,
"ready to advance" holds); the cursor stays within `[0, length]` while
not done; and while waiting the cursor points at a real step that
declares `needs_input`. -/
def InvS (st : RunnerState ε) : Prop :=
  (∀ s ∈ st.steps, NoWFI s)
  ∧ ¬(st.waiting = true ∧ st.done = true)
  ∧ (st.done = false → st.cursor ≤ st.steps.length)
  ∧ (st.waiting = true → ∃ h : st.cursor < st.steps.length,
      (st.steps.get ⟨st.cursor, h⟩).needs_input = true)

theorem dictLookup_mem {α : Type} :
    ∀ (l : List (String × α)) (k : String) (v : α),
    dictLookup l k = some v → (k, v) ∈ l := by
  intro l
  induction l with
  | nil => intro k v h; simp [dictLookup] at h
  | cons p rest ih =>
      obtain ⟨pk, pv⟩ := p
      intro k v h
      by_cases hk : pk = k
      · subst hk
        simp only [dictLookup, if_pos rfl] at h
        cases h
        exact List.mem_cons_self _ _
      · simp only [dictLookup, if_neg hk] at h
        exact List.mem_cons_of_mem _ (ih k v h)

theorem routerGet_nowfi {ε : Type} (router : Router ε) (m : String)
    (steps : List (WorkflowStep ε)) (hr : RouterNoWFI router)
    (hget : router.get m = .ok steps) : ∀ s ∈ steps, NoWFI s := by
  intro s hs
  unfold Router.get at hget
  cases hl : dictLookup router.routes (pyLower m) with
  | none => rw [hl] at hget; cases hget
  | some v =>
      rw [hl] at hget
      injection hget with hv
      subst hv
      exact hr (pyLower m, v) (dictLookup_mem router.routes (pyLower m) v hl)
        s hs

/-- Preservation of the C6 invariant by the auto-advance machinery, for
the three mutually recursive functions simultaneously, by induction on
fuel.  `run_current`/`handle_output` are entered in a "ready to advance"
state; `handle_output` is additionally entered with an output a `NoWFI`
step produced. -/
theorem inv_preserve {ε : Type} :
    ∀ (fuel : Nat) (router : Router ε) (st : RunnerState ε) (ctx : SessionContext),
    RouterNoWFI router →
    (((∀ s ∈ st.steps, NoWFI s) → st.done = false → st.waiting = false →
      st.cursor ≤ st.steps.length →
      InvS (run_current fuel router st ctx).state)
    ∧ (∀ out, (∀ s ∈ st.steps, NoWFI s) → st.done = false →
      st.waiting = false → st.cursor ≤ st.steps.length →
      out.result ≠ .WAIT_FOR_INPUT →
      InvS (handle_output fuel router st ctx out).state)
    ∧ (∀ m, InvS st → InvS (start fuel router st ctx m).state)) := by
  intro fuel
  induction fuel with
  | zero =>
      intro router st ctx hr
      refine ⟨fun hs hd hw hc => ?_, fun out hs hd hw hc _ => ?_,
              fun m hinv => ?_⟩
      · exact ⟨hs, by simp [run_current, hw], fun _ => hc,
          by simp [run_current, hw]⟩
      · exact ⟨hs, by simp [handle_output, hw], fun _ => hc,
          by simp [handle_output, hw]⟩
      · exact hinv
  | succ f ih =>
      intro router st ctx hr
      refine ⟨?_, ?_, ?_⟩
      · intro hs hd hw hc
        by_cases h : st.cursor < st.steps.length
        · by_cases hni : st.steps[st.cursor].needs_input = true
          · refine ⟨?_, ?_, ?_, ?_⟩ <;>
              simp only [run_current, dif_pos h, List.get_eq_getElem,
                if_pos hni]
            · exact hs
            · simp [hd]
            · intro
              exact hc
            · intro
              exact ⟨h, hni⟩
          · cases hex : st.steps[st.cursor].execute ctx none with
            | error e =>
                refine ⟨?_, ?_, ?_, ?_⟩ <;>
                  simp only [run_current, dif_pos h, List.get_eq_getElem,
                    if_neg hni, hex]
                · exact hs
                · simp [hw]
                · intro
                  exact hc
                · simp [hw]
            | ok pr =>
                obtain ⟨out, ctx'⟩ := pr
                have hwfi : out.result ≠ .WAIT_FOR_INPUT :=
                  hs st.steps[st.cursor] (List.getElem_mem h) ctx none out
                    ctx' hex
                have hmain := (ih router st ctx' hr).2.1 out hs hd hw hc hwfi
                simp only [run_current, dif_pos h, List.get_eq_getElem,
                  if_neg hni, hex]
                exact hmain
        · refine ⟨?_, ?_, ?_, ?_⟩ <;>
            simp only [run_current, dif_pos, dif_neg h]
          · exact hs
          · simp [hw]
          · intro
            exact hc
          · simp [hw]
      · intro out hs hd hw hc hwfi
        cases hres : out.result with
        | DONE =>
            by_cases hlast : (st.cursor : Int) ≥ (st.steps.length : Int) - 1
            · refine ⟨?_, ?_, ?_, ?_⟩ <;>
                simp only [handle_output, hres, if_pos hlast]
              · exact hs
              · simp [hw]
              · simp
              · simp [hw]
            · have hc2 : st.cursor + 1 ≤ st.steps.length := by omega
              simp only [handle_output, hres, if_neg hlast]
              exact (ih router {st with cursor := st.cursor + 1} ctx hr).1
                hs hd hw hc2
        | BRANCH =>
            cases hbt : out.branch_to with
            | none =>
                refine ⟨?_, ?_, ?_, ?_⟩ <;>
                  simp only [handle_output, hres, hbt]
                · exact hs
                · simp [hw]
                · intro
                  exact hc
                · simp [hw]
            | some target =>
                by_cases ht : target = ""
                · subst ht
                  refine ⟨?_, ?_, ?_, ?_⟩ <;>
                    simp only [handle_output, hres, hbt, if_pos rfl]
                  · exact hs
                  · simp [hw]
                  · intro
                    exact hc
                  · simp [hw]
                · have hinv : InvS st :=
                    ⟨hs, by simp [hw], fun _ => hc, by simp [hw]⟩
                  simp only [handle_output, hres, hbt, if_neg ht]
                  exact (ih router st ctx hr).2.2 target hinv
        | WAIT_FOR_INPUT => exact absurd hres hwfi
        | CONTINUE =>
            by_cases hend : st.cursor + 1 ≥ st.steps.length
            · refine ⟨?_, ?_, ?_, ?_⟩ <;>
                simp only [handle_output, hres, if_pos hend]
              · exact hs
              · simp [hw]
              · simp
              · simp [hw]
            · have hc2 : st.cursor + 1 ≤ st.steps.length := by omega
              simp only [handle_output, hres, if_neg hend]
              exact (ih router {st with cursor := st.cursor + 1} ctx hr).1
                hs hd hw hc2
      · intro m hinv
        cases hget : router.get m with
        | error e =>
            simp only [start, hget]
            exact hinv
        | ok steps =>
            have hsteps : ∀ s ∈ steps, NoWFI s :=
              routerGet_nowfi router m steps hr hget
            simp only [start, hget]
            exact (ih router ⟨steps, 0, false, false, m⟩
              {ctx with modality := m} hr).1 hsteps rfl rfl (by simp)

/-- Preservation of the C6 invariant by `advance`. -/
theorem inv_advance {ε : Type} (fuel : Nat) (router : Router ε)
    (st : RunnerState ε) (ctx : SessionContext) (hr : RouterNoWFI router)
    (hinv : InvS st) : InvS (advance fuel router st ctx).state := by
  obtain ⟨hs, hwd, hcur, hwait⟩ := hinv
  by_cases hd : st.done = true
  · simpa [advance, hd] using ⟨hs, hwd, hcur, hwait⟩
  · have hd' : st.done = false := by simpa using hd
    by_cases hw : st.waiting = true
    · simpa [advance, hd, hw] using ⟨hs, hwd, hcur, hwait⟩
    · have hw' : st.waiting = false := by simpa using hw
      by_cases hend : st.cursor + 1 ≥ st.steps.length
      · refine ⟨?_, ?_, ?_, ?_⟩ <;>
          simp only [advance, hd, hw, Bool.false_eq_true, if_false,
            if_pos hend]
        · exact hs
        · simp [hw']
        · simp
        · simp [hw']
      · have hc2 : st.cursor + 1 ≤ st.steps.length := by omega
        simp only [advance, hd, hw, Bool.false_eq_true, if_false,
          if_neg hend]
        exact (inv_preserve fuel router
          ⟨st.steps, st.cursor + 1, false, false, st.current_modality⟩
          ctx hr).1 hs rfl rfl hc2

/-- Preservation of the C6 invariant by `submit_input`. -/
theorem inv_submit {ε : Type} (fuel : Nat) (router : Router ε)
    (st : RunnerState ε) (ctx : SessionContext) (input : String)
    (hr : RouterNoWFI router) (hinv : InvS st) :
    InvS (submit_input fuel router st ctx input).state := by
  obtain ⟨hs, hwd, hcur, hwait⟩ := hinv
  by_cases hw : st.waiting = true
  · obtain ⟨h, hni⟩ := hwait hw
    have hd : st.done = false := by
      by_contra hd
      exact hwd ⟨hw, by simpa using hd⟩
    rw [List.get_eq_getElem] at hni
    cases hex : st.steps[st.cursor].execute ctx (some input) with
    | error e =>
        refine ⟨?_, ?_, ?_, ?_⟩ <;>
          simp only [submit_input, hw, Bool.true_eq_false, if_false,
            dif_pos h, List.get_eq_getElem, hex]
        · exact hs
        · simp
        · intro
          exact Nat.le_of_lt h
        · simp
    | ok pr =>
        obtain ⟨out, ctx'⟩ := pr
        have hwfi : out.result ≠ .WAIT_FOR_INPUT :=
          hs st.steps[st.cursor] (List.getElem_mem h) ctx (some input) out
            ctx' hex
        have hmain := (inv_preserve fuel router {st with waiting := false}
          ctx' hr).2.1 out hs hd rfl (Nat.le_of_lt h) hwfi
        simp only [submit_input, hw, Bool.true_eq_false, if_false,
          dif_pos h, List.get_eq_getElem, hex]
        exact hmain
  · have hw' : st.waiting = false := by simpa using hw
    simpa [submit_input, hw'] using ⟨hs, hwd, hcur, hwait⟩

/-- The active list is consistent with the active sequence name: it is
either the constructor's empty list or the list registered under the
(lowercased) active name.  `start` is the only operation that replaces
the list, and it installs exactly the router's list for the name it
records. -/
def GoodMod (router : Router ε) (st : RunnerState ε) : Prop :=
  st.steps = [] ∨
    dictLookup router.routes (pyLower st.current_modality) = some st.steps

/-- The unconditional part of the C6 invariant: waiting and done never
hold together, the cursor stays within `[0, length]` while not done,
and the active list is consistent with the active name (`GoodMod`).
No assumption on step behavior is needed for these. -/
def InvW (router : Router ε) (st : RunnerState ε) : Prop :=
  ¬(st.waiting = true ∧ st.done = true)
  ∧ (st.done = false → st.cursor ≤ st.steps.length)
  ∧ GoodMod router st

theorem routerGet_lookup {ε : Type} (router : Router ε) (m : String)
    (steps : List (WorkflowStep ε)) (hget : router.get m = .ok steps) :
    dictLookup router.routes (pyLower m) = some steps := by
  unfold Router.get at hget
  cases hl : dictLookup router.routes (pyLower m) with
  | none => rw [hl] at hget; cases hget
  | some v =>
      rw [hl] at hget
      injection hget with hv
      exact congrArg some hv

/-- Preservation of the unconditional C6 invariant by the auto-advance
machinery, for the three mutually recursive functions simultaneously,
by induction on fuel.  Unlike `inv_preserve`, no hypothesis on step
outputs is needed: a WAIT_FOR_INPUT output merely sets `waiting` in a
not-done state. -/
theorem invW_preserve {ε : Type} :
    ∀ (fuel : Nat) (router : Router ε) (st : RunnerState ε) (ctx : SessionContext),
    ((GoodMod router st → st.done = false → st.waiting = false →
      st.cursor ≤ st.steps.length →
      InvW router (run_current fuel router st ctx).state)
    ∧ (∀ out, GoodMod router st → st.done = false → st.waiting = false →
      st.cursor ≤ st.steps.length →
      InvW router (handle_output fuel router st ctx out).state)
    ∧ (∀ m, InvW router st → InvW router (start fuel router st ctx m).state)) := by
  intro fuel
  induction fuel with
  | zero =>
      intro router st ctx
      refine ⟨fun hg hd hw hc => ?_, fun out hg hd hw hc => ?_,
              fun m hinv => ?_⟩
      · exact ⟨by simp [run_current, hw], fun _ => hc, hg⟩
      · exact ⟨by simp [handle_output, hw], fun _ => hc, hg⟩
      · exact hinv
  | succ f ih =>
      intro router st ctx
      refine ⟨?_, ?_, ?_⟩
      · intro hg hd hw hc
        by_cases h : st.cursor < st.steps.length
        · by_cases hni : st.steps[st.cursor].needs_input = true
          · refine ⟨?_, ?_, ?_⟩ <;>
              simp only [run_current, dif_pos h, List.get_eq_getElem,
                if_pos hni]
            · simp [hd]
            · intro
              exact hc
            · exact hg
          · cases hex : st.steps[st.cursor].execute ctx none with
            | error e =>
                refine ⟨?_, ?_, ?_⟩ <;>
                  simp only [run_current, dif_pos h, List.get_eq_getElem,
                    if_neg hni, hex]
                · simp [hw]
                · intro
                  exact hc
                · exact hg
            | ok pr =>
                obtain ⟨out, ctx'⟩ := pr
                have hmain := (ih router st ctx').2.1 out hg hd hw hc
                simp only [run_current, dif_pos h, List.get_eq_getElem,
                  if_neg hni, hex]
                exact hmain
        · refine ⟨?_, ?_, ?_⟩ <;> simp only [run_current, dif_neg h]
          · simp [hw]
          · intro
            exact hc
          · exact hg
      · intro out hg hd hw hc
        cases hres : out.result with
        | DONE =>
            by_cases hlast : (st.cursor : Int) ≥ (st.steps.length : Int) - 1
            · refine ⟨?_, ?_, ?_⟩ <;>
                simp only [handle_output, hres, if_pos hlast]
              · simp [hw]
              · simp
              · exact hg
            · have hc2 : st.cursor + 1 ≤ st.steps.length := by omega
              simp only [handle_output, hres, if_neg hlast]
              exact (ih router {st with cursor := st.cursor + 1} ctx).1
                hg hd hw hc2
        | BRANCH =>
            cases hbt : out.branch_to with
            | none =>
                refine ⟨?_, ?_, ?_⟩ <;>
                  simp only [handle_output, hres, hbt]
                · simp [hw]
                · intro
                  exact hc
                · exact hg
            | some target =>
                by_cases ht : target = ""
                · subst ht
                  refine ⟨?_, ?_, ?_⟩ <;>
                    simp only [handle_output, hres, hbt, if_pos rfl]
                  · simp [hw]
                  · intro
                    exact hc
                  · exact hg
                · have hinv : InvW router st := ⟨by simp [hw], fun _ => hc, hg⟩
                  simp only [handle_output, hres, hbt, if_neg ht]
                  exact (ih router st ctx).2.2 target hinv
        | WAIT_FOR_INPUT =>
            refine ⟨?_, ?_, ?_⟩ <;>
              simp only [handle_output, hres]
            · simp [hd]
            · intro
              exact hc
            · exact hg
        | CONTINUE =>
            by_cases hend : st.cursor + 1 ≥ st.steps.length
            · refine ⟨?_, ?_, ?_⟩ <;>
                simp only [handle_output, hres, if_pos hend]
              · simp [hw]
              · simp
              · exact hg
            · have hc2 : st.cursor + 1 ≤ st.steps.length := by omega
              simp only [handle_output, hres, if_neg hend]
              exact (ih router {st with cursor := st.cursor + 1} ctx).1
                hg hd hw hc2
      · intro m hinv
        cases hget : router.get m with
        | error e =>
            simp only [start, hget]
            exact hinv
        | ok steps =>
            simp only [start, hget]
            exact (ih router ⟨steps, 0, false, false, m⟩
              {ctx with modality := m}).1
              (Or.inr (routerGet_lookup router m steps hget)) rfl rfl (by simp)

/-- Preservation of the unconditional C6 invariant by `advance`. -/
theorem invW_advance {ε : Type} (fuel : Nat) (router : Router ε)
    (st : RunnerState ε) (ctx : SessionContext) (hinv : InvW router st) :
    InvW router (advance fuel router st ctx).state := by
  obtain ⟨hwd, hcur, hg⟩ := hinv
  by_cases hd : st.done = true
  · simpa [advance, hd] using ⟨hwd, hcur, hg⟩
  · by_cases hw : st.waiting = true
    · simpa [advance, hd, hw] using ⟨hwd, hcur, hg⟩
    · by_cases hend : st.cursor + 1 ≥ st.steps.length
      · refine ⟨?_, ?_, ?_⟩ <;>
          simp only [advance, hd, hw, Bool.false_eq_true, if_false,
            if_pos hend]
        · simp
        · simp
        · exact hg
      · have hc2 : st.cursor + 1 ≤ st.steps.length := by omega
        simp only [advance, hd, hw, Bool.false_eq_true, if_false,
          if_neg hend]
        exact (invW_preserve fuel router
          ⟨st.steps, st.cursor + 1, false, false, st.current_modality⟩ ctx).1
          hg rfl rfl hc2

/-- Preservation of the unconditional C6 invariant by `submit_input`. -/
theorem invW_submit {ε : Type} (fuel : Nat) (router : Router ε)
    (st : RunnerState ε) (ctx : SessionContext) (input : String)
    (hinv : InvW router st) :
    InvW router (submit_input fuel router st ctx input).state := by
  obtain ⟨hwd, hcur, hg⟩ := hinv
  by_cases hw : st.waiting = true
  · have hd : st.done = false := by
      by_contra hdc
      exact hwd ⟨hw, by simpa using hdc⟩
    by_cases h : st.cursor < st.steps.length
    · cases hex : st.steps[st.cursor].execute ctx (some input) with
      | error e =>
          refine ⟨?_, ?_, ?_⟩ <;>
            simp only [submit_input, hw, Bool.true_eq_false, if_false,
              dif_pos h, List.get_eq_getElem, hex]
          · simp
          · intro
            exact Nat.le_of_lt h
          · exact hg
      | ok pr =>
          obtain ⟨out, ctx'⟩ := pr
          have hmain := (invW_preserve fuel router {st with waiting := false}
            ctx').2.1 out hg hd rfl (Nat.le_of_lt h)
          simp only [submit_input, hw, Bool.true_eq_false, if_false,
            dif_pos h, List.get_eq_getElem, hex]
          exact hmain
    · refine ⟨?_, ?_, ?_⟩ <;>
        simp only [submit_input, hw, Bool.true_eq_false, if_false, dif_neg h]
      · simp
      · intro
        exact hcur hd
      · exact hg
  · have hw' : st.waiting = false := by simpa using hw
    simpa [submit_input, hw'] using ⟨hwd, hcur, hg⟩

/-- What the trace invariant records about an execution event: an
auto-execution (one performed with `user_input=None`, i.e. by
`_run_current`) only ever happens at a position whose step — in the list
registered under the event's sequence name — does not declare
`needs_input`:  `_run_current` pauses on a `needs_input` step instead of
executing it. -/
def EventOK (router : Router ε) (ev : ExecEvent) : Prop :=
  ev.input = none →
  ∃ steps, dictLookup router.routes (pyLower ev.seq) = some steps ∧
    ∃ h : ev.index < steps.length,
      (steps.get ⟨ev.index, h⟩).needs_input = false

/-- Every event in the traces of the auto-advance machinery satisfies
`EventOK`, provided the entry state's list is consistent with its name
(`GoodMod`); by induction on fuel for the three mutually recursive
functions simultaneously. -/
theorem run_events_ok {ε : Type} :
    ∀ (fuel : Nat) (router : Router ε) (st : RunnerState ε) (ctx : SessionContext),
    ((GoodMod router st →
      ∀ ev ∈ (run_current fuel router st ctx).trace, EventOK router ev)
    ∧ (∀ out, GoodMod router st →
      ∀ ev ∈ (handle_output fuel router st ctx out).trace, EventOK router ev)
    ∧ (∀ m, ∀ ev ∈ (start fuel router st ctx m).trace, EventOK router ev)) := by
  intro fuel
  induction fuel with
  | zero =>
      intro router st ctx
      exact ⟨fun _ => by simp [run_current],
             fun out _ => by simp [handle_output],
             fun m => by simp [start]⟩
  | succ f ih =>
      intro router st ctx
      refine ⟨?_, ?_, ?_⟩
      · intro hg
        by_cases h : st.cursor < st.steps.length
        · have hlook : dictLookup router.routes
              (pyLower st.current_modality) = some st.steps := by
            rcases hg with hnil | hlook
            · rw [hnil] at h
              simp at h
            · exact hlook
          by_cases hni : st.steps[st.cursor].needs_input = true
          · simp [run_current, h, hni]
          · cases hex : st.steps[st.cursor].execute ctx none with
            | error e =>
                intro ev hev
                simp only [run_current, dif_pos h, List.get_eq_getElem,
                  if_neg hni, hex, List.mem_singleton] at hev
                subst hev
                intro _
                exact ⟨st.steps, hlook, h, by simpa using hni⟩
            | ok pr =>
                obtain ⟨out, ctx'⟩ := pr
                intro ev hev
                simp only [run_current, dif_pos h, List.get_eq_getElem,
                  if_neg hni, hex, List.mem_cons] at hev
                rcases hev with rfl | hev
                · intro _
                  exact ⟨st.steps, hlook, h, by simpa using hni⟩
                · exact (ih router st ctx').2.1 out hg ev hev
        · simp [run_current, h]
      · intro out hg
        cases hres : out.result with
        | DONE =>
            by_cases hlast : (st.cursor : Int) ≥ (st.steps.length : Int) - 1
            · simp [handle_output, hres, hlast]
            · simp only [handle_output, hres, if_neg hlast]
              exact (ih router {st with cursor := st.cursor + 1} ctx).1 hg
        | BRANCH =>
            cases hbt : out.branch_to with
            | none => simp [handle_output, hres, hbt]
            | some target =>
                by_cases ht : target = ""
                · simp [handle_output, hres, hbt, ht]
                · simp only [handle_output, hres, hbt, if_neg ht]
                  exact (ih router st ctx).2.2 target
        | WAIT_FOR_INPUT => simp [handle_output, hres]
        | CONTINUE =>
            by_cases hend : st.cursor + 1 ≥ st.steps.length
            · simp [handle_output, hres, hend]
            · simp only [handle_output, hres, if_neg hend]
              exact (ih router {st with cursor := st.cursor + 1} ctx).1 hg
      · intro m
        cases hget : router.get m with
        | error e => simp [start, hget]
        | ok steps =>
            simp only [start, hget]
            exact (ih router ⟨steps, 0, false, false, m⟩
              {ctx with modality := m}).1
              (Or.inr (routerGet_lookup router m steps hget))

/-- `EventOK` for the traces of the three host entry points: every
auto-execution event they record is at a non-`needs_input` position of
the list registered under its sequence name (the `submit_input` entry
event carries the user's text, so it is not an auto-execution). -/
theorem call_events_ok {ε : Type} (fuel : Nat) (router : Router ε)
    (st : RunnerState ε) (ctx : SessionContext) (m input : String)
    (hg : GoodMod router st) :
    (∀ ev ∈ (start fuel router st ctx m).trace, EventOK router ev)
    ∧ (∀ ev ∈ (advance fuel router st ctx).trace, EventOK router ev)
    ∧ (∀ ev ∈ (submit_input fuel router st ctx input).trace, EventOK router ev) := by
  refine ⟨(run_events_ok fuel router st ctx).2.2 m, ?_, ?_⟩
  · by_cases hd : st.done = true
    · simp [advance, hd]
    · by_cases hw : st.waiting = true
      · simp [advance, hd, hw]
      · by_cases hend : st.cursor + 1 ≥ st.steps.length
        · simp [advance, hd, hw, hend]
        · simp only [advance, hd, hw, Bool.false_eq_true, if_false,
            if_neg hend]
          exact (run_events_ok fuel router
            ⟨st.steps, st.cursor + 1, false, false, st.current_modality⟩
            ctx).1 hg
  · by_cases hw : st.waiting = true
    · by_cases h : st.cursor < st.steps.length
      · cases hex : st.steps[st.cursor].execute ctx (some input) with
        | error e =>
            intro ev hev
            simp only [submit_input, hw, Bool.true_eq_false, if_false,
              dif_pos h, List.get_eq_getElem, hex, List.mem_singleton] at hev
            subst hev
            intro hnone
            exact Option.noConfusion hnone
        | ok pr =>
            obtain ⟨out, ctx'⟩ := pr
            intro ev hev
            simp only [submit_input, hw, Bool.true_eq_false, if_false,
              dif_pos h, List.get_eq_getElem, hex, List.mem_cons] at hev
            rcases hev with rfl | hev
            · intro hnone
              exact Option.noConfusion hnone
            · exact (run_events_ok fuel router {st with waiting := false}
                ctx').2.1 out hg ev hev
      · simp [submit_input, hw, h]
    · simp [submit_input, hw]

/-- "The paused step has not been executed for the current pause": when
a call leaves the runner waiting, the call's trace contains no
auto-execution (`user_input=None`) event at the paused position of the
paused sequence.  The pause is taken by `_run_current` *before*
execution and ends the call at once; the only event that may mention the
paused position is a `submit_input` delivery (input ≠ None) that
consumed an earlier pause of the same step. -/
def PausedNotExecuted (r : RunResult ε) : Prop :=
  r.state.waiting = true →
  ∀ ev ∈ r.trace,
    ¬(ev.seq = r.state.current_modality ∧ ev.index = r.state.cursor
      ∧ ev.input = none)

/-- The runner states reachable from a freshly constructed
`PipelineRunner` by any sequence of `start` / `advance` / `submit_input`
calls (with arbitrary contexts, fuels and arguments), including the
states left behind by calls that raise. -/
inductive Reachable {ε : Type} (router : Router ε) : RunnerState ε → Prop where
  | init : Reachable router (initialRunnerState ε)
  | step_start : ∀ {st : RunnerState ε} (fuel : Nat) (ctx : SessionContext)
      (m : String), Reachable router st →
      Reachable router (start fuel router st ctx m).state
  | step_advance : ∀ {st : RunnerState ε} (fuel : Nat) (ctx : SessionContext),
      Reachable router st →
      Reachable router (advance fuel router st ctx).state
  | step_submit : ∀ {st : RunnerState ε} (fuel : Nat) (ctx : SessionContext)
      (input : String), Reachable router st →
      Reachable router (submit_input fuel router st ctx input).state

/-- Every reachable state satisfies the unconditional C6 invariant. -/
theorem invW_reachable {ε : Type} (router : Router ε) (st : RunnerState ε)
    (hreach : Reachable router st) : InvW router st := by
  induction hreach with
  | init =>
      exact ⟨by simp [initialRunnerState], by simp [initialRunnerState],
        Or.inl rfl⟩
  | step_start fuel ctx m _ ih => exact (invW_preserve fuel router _ ctx).2.2 m ih
  | step_advance fuel ctx _ ih => exact invW_advance fuel router _ ctx ih
  | step_submit fuel ctx input _ ih =>
      exact invW_submit fuel router _ ctx input ih

/-- Every reachable state satisfies the full C6 invariant when no step
of the router ever returns a WAIT_FOR_INPUT-kind output. -/
theorem invS_reachable {ε : Type} (router : Router ε) (st : RunnerState ε)
    (hr : RouterNoWFI router) (hreach : Reachable router st) : InvS st := by
  induction hreach with
  | init => exact ⟨by simp [initialRunnerState], by simp [initialRunnerState],
      by simp [initialRunnerState], by simp [initialRunnerState]⟩
  | step_start fuel ctx m _ ih =>
      exact (inv_preserve fuel router _ ctx hr).2.2 m ih
  | step_advance fuel ctx _ ih => exact inv_advance fuel router _ ctx hr ih
  | step_submit fuel ctx input _ ih =>
      exact inv_submit fuel router _ ctx input hr ih

/-- A call whose result state is reachable and whose trace events all
satisfy `EventOK` never executes the step it pauses on: under
`RouterNoWFI` the paused position declares `needs_input`, while every
auto-execution event sits at a non-`needs_input` position of the same
registered list. -/
theorem paused_not_executed_of {ε : Type} (router : Router ε)
    (r : RunResult ε) (hreachr : Reachable router r.state)
    (hr : RouterNoWFI router)
    (hev : ∀ ev ∈ r.trace, EventOK router ev) :
    PausedNotExecuted r := by
  intro hw ev hevmem hcontra
  obtain ⟨hseq, hidx, hinp⟩ := hcontra
  obtain ⟨hlt, hni⟩ := (invS_reachable router r.state hr hreachr).2.2.2 hw
  rcases (invW_reachable router r.state hreachr).2.2 with hnil | hlook
  · rw [hnil] at hlt
    simp at hlt
  · obtain ⟨steps', hlook', hlt', hni'⟩ := hev ev hevmem hinp
    rw [hseq] at hlook'
    rw [hlook] at hlook'
    injection hlook' with hsteps
    subst hsteps
    have hfin : (⟨ev.index, hlt'⟩ : Fin r.state.steps.length) =
        ⟨r.state.cursor, hlt⟩ := Fin.ext hidx
    rw [hfin] at hni'
    rw [hni] at hni'
    simp at hni'

/-- C6 (amended).  In every runner state reachable from a constructed
runner by any sequence of `start`/`advance`/`submit_input` calls:
waiting and done never hold together — so exactly one of waiting, done,
and "ready to advance" (neither flag) holds — and the cursor lies within
`[0, length of the active list]` whenever not done, both with no
assumption on the steps.  Provided additionally that no step's `execute`
returns a WAIT_FOR_INPUT-kind output (without this proviso
`_handle_output` sets `waiting` on such an output even for an
already-executed step that never declared `needs_input`): whenever
waiting holds, the step at the cursor exists and declares `needs_input`;
and the step at the cursor has not been executed for the current pause —
any call that leaves the runner waiting has a trace containing no
auto-execution (`user_input=None`) event at the paused position of the
paused sequence, so the pending step is executed only by the following
`submit_input`. -/
theorem c6_runner_invariant {ε : Type} (router : Router ε)
    (st : RunnerState ε) (hreach : Reachable router st) :
    ¬(st.waiting = true ∧ st.done = true)
    ∧ (st.done = false → st.cursor ≤ st.steps.length)
    ∧ (RouterNoWFI router → st.waiting = true →
        ∃ h : st.cursor < st.steps.length,
          (st.steps.get ⟨st.cursor, h⟩).needs_input = true)
    ∧ (RouterNoWFI router →
        ∀ (fuel : Nat) (ctx : SessionContext) (m input : String),
        PausedNotExecuted (start fuel router st ctx m)
        ∧ PausedNotExecuted (advance fuel router st ctx)
        ∧ PausedNotExecuted (submit_input fuel router st ctx input)) := by
  have hW := invW_reachable router st hreach
  refine ⟨hW.1, hW.2.1,
    fun hr hw => (invS_reachable router st hr hreach).2.2.2 hw, ?_⟩
  intro hr fuel ctx m input
  obtain ⟨hes, hea, heu⟩ := call_events_ok fuel router st ctx m input hW.2.2
  exact ⟨paused_not_executed_of router _
      (Reachable.step_start fuel ctx m hreach) hr hes,
    paused_not_executed_of router _
      (Reachable.step_advance fuel ctx hreach) hr hea,
    paused_not_executed_of router _
      (Reachable.step_submit fuel ctx input hreach) hr heu⟩

/-- The state reached by starting the all-CONTINUE sequence "m" of
`rCont`, used by the C6 witness. -/
def startedContState : RunnerState String :=
  (start 20 rCont (initialRunnerState String) ctx0 "m").state

/-- `rCont` registers only `stepCont`, which never returns a
WAIT_FOR_INPUT output. -/
theorem rCont_no_wfi : RouterNoWFI rCont := by
  intro p hp s hs
  simp only [rCont, Router.register, dictSet, List.mem_cons,
    List.not_mem_nil, or_false] at hp
  subst hp
  simp only [List.mem_cons, List.not_mem_nil, or_false] at hs
  rcases hs with rfl | rfl | rfl <;>
    · intro c i o c2 hok
      simp only [stepCont, Except.ok.injEq, Prod.mk.injEq] at hok
      obtain ⟨h1, h2⟩ := hok
      subst h1
      decide

/-- Witness for C6 at the state reached by starting the all-CONTINUE
sequence "m" of `rCont` (whose steps never return WAIT_FOR_INPUT),
with the conditioned conjuncts discharged at concrete inputs. -/
theorem c6_runner_invariant_witness :
    ¬(startedContState.waiting = true ∧ startedContState.done = true)
    ∧ (startedContState.done = false →
        startedContState.cursor ≤ startedContState.steps.length)
    ∧ (startedContState.waiting = true →
        ∃ h : startedContState.cursor < startedContState.steps.length,
          (startedContState.steps.get
            ⟨startedContState.cursor, h⟩).needs_input = true)
    ∧ PausedNotExecuted (start 5 rCont startedContState ctx0 "m")
    ∧ PausedNotExecuted (advance 5 rCont startedContState ctx0)
    ∧ PausedNotExecuted (submit_input 5 rCont startedContState ctx0 "x") := by
  have h := c6_runner_invariant rCont startedContState
    (Reachable.step_start 20 ctx0 "m" Reachable.init)
  have h4 := h.2.2.2 rCont_no_wfi 5 ctx0 "m" "x"
  exact ⟨h.1, h.2.1, h.2.2.1 rCont_no_wfi, h4.1, h4.2.1, h4.2.2⟩

/-- Counterexample to C6 as stated: starting the registered sequence
"q" = `[stepWFIOut]` — one auto step whose `execute` returns a
WAIT_FOR_INPUT output — reaches a state with `waiting = true` whose
cursor step has `needs_input = false` and has already been executed
(the trace records its execution), refuting the claim's third conjunct
on a reachable state. -/
theorem c6_waiting_without_needs_input_counterexample :
    (start 10 rWFIOut (initialRunnerState String) ctx0 "q").state.waiting = true
    ∧ ((start 10 rWFIOut (initialRunnerState String) ctx0 "q").state.steps.map
        fun s => s.needs_input) = [false]
    ∧ (start 10 rWFIOut (initialRunnerState String) ctx0 "q").state.cursor = 0
    ∧ (start 10 rWFIOut (initialRunnerState String) ctx0 "q").trace =
        [⟨"q", 0, none⟩]
    ∧ Reachable rWFIOut
        (start 10 rWFIOut (initialRunnerState String) ctx0 "q").state :=
  ⟨rfl, rfl, rfl, rfl, Reachable.step_start 10 ctx0 "q" Reachable.init⟩

/-! ### Claim theorems: DONE handling (C7) -/

/-- C7: a DONE output handled with the cursor at (or past) the last
index sets the done flag and returns the output unchanged; handled with
the cursor strictly before the last index it increments the cursor and
runs the next step (`_run_current`, which executes it, or pauses first
when that step needs input). -/
theorem c7_done_handling {ε : Type} (fuel : Nat) (router : Router ε)
    (st : RunnerState ε) (ctx : SessionContext) (output : StepOutput)
    (hres : output.result = .DONE) :
    ((st.cursor : Int) ≥ (st.steps.length : Int) - 1 →
      handle_output (fuel + 1) router st ctx output =
        ⟨.ok output, {st with done := true}, ctx, []⟩)
    ∧ ((st.cursor : Int) < (st.steps.length : Int) - 1 →
      handle_output (fuel + 1) router st ctx output =
        run_current fuel router {st with cursor := st.cursor + 1} ctx) := by
  constructor
  · intro h
    simp [handle_output, hres, h]
  · intro h
    have h' : ¬ ((st.cursor : Int) ≥ (st.steps.length : Int) - 1) := by omega
    simp [handle_output, hres, h']

/-- Witness for C7: DONE at the last index of a 1-step list finishes;
DONE at index 0 of a 3-step list hands control to the next step. -/
theorem c7_done_handling_witness :
    handle_output 6 rCont ⟨[stepCont], 0, false, false, "m"⟩ ctx0
        ⟨.DONE, "fin", [], none⟩ =
      ⟨.ok ⟨.DONE, "fin", [], none⟩, ⟨[stepCont], 0, true, false, "m"⟩, ctx0, []⟩
    ∧ handle_output 6 rCont ⟨[stepCont, stepCont, stepCont], 0, false, false, "m"⟩
        ctx0 ⟨.DONE, "fin", [], none⟩ =
      run_current 5 rCont ⟨[stepCont, stepCont, stepCont], 1, false, false, "m"⟩ ctx0 :=
  ⟨(c7_done_handling 5 rCont ⟨[stepCont], 0, false, false, "m"⟩ ctx0
      ⟨.DONE, "fin", [], none⟩ rfl).1 (by decide),
   (c7_done_handling 5 rCont ⟨[stepCont, stepCont, stepCont], 0, false, false, "m"⟩
      ctx0 ⟨.DONE, "fin", [], none⟩ rfl).2 (by decide)⟩

end Crispr
